import Mathlib

/-!
Formal model of the dual-ai-chat core: the notepad directive interpreter,
the two-persona discussion orchestrator, the notepad undo/redo history and
the bounded version record, together with proofs of the specification's
testable properties.

Text buffers are modelled as `List Char`; TypeScript line numbers are
modelled as `Int`, since the source allows values below 1 to reach the
interpreter.
-/

namespace DualAiChat

/-- Does `pat` occur as a contiguous substring of `s`?  Mirrors the literal
(non-regex) substring test the interpreter performs for search-and-replace
and the orchestrator performs for the stop sentinel. -/
def containsSub (pat : List Char) : List Char → Bool
  | [] => pat.isEmpty
  | c :: rest => pat.isPrefixOf (c :: rest) || containsSub pat rest

/-- Replace the leftmost occurrence of a nonempty `pat` in `s` by `repl`;
`s` is returned unchanged when `pat` does not occur or is empty. -/
def replaceFirstL (pat repl : List Char) : List Char → List Char
  | [] => []
  | c :: rest =>
    if pat ≠ [] ∧ pat.isPrefixOf (c :: rest) then
      repl ++ (c :: rest).drop pat.length
    else
      c :: replaceFirstL pat repl rest

/-- Replace every leftmost non-overlapping occurrence of a nonempty `pat`
in `s` by `repl` in a single left-to-right scan (JS `replaceAll`
semantics: replaced text is not rescanned). -/
def replaceAllL (pat repl : List Char) (s : List Char) : List Char :=
  match s with
  | [] => []
  | c :: rest =>
    if h : pat ≠ [] ∧ pat.isPrefixOf (c :: rest) then
      repl ++ replaceAllL pat repl ((c :: rest).drop pat.length)
    else
      c :: replaceAllL pat repl rest
termination_by s.length
decreasing_by
  · simp only [List.length_drop, List.length_cons]
    have h1 : 0 < pat.length := List.length_pos.mpr h.1
    omega
  · simp only [List.length_cons]
    omega

/-- Number of leftmost non-overlapping occurrences of `pat` in `s`
(0 when `pat` is empty), counted by the same scan as `replaceAllL`. -/
def countOccL (pat : List Char) (s : List Char) : Nat :=
  match s with
  | [] => 0
  | c :: rest =>
    if h : pat ≠ [] ∧ pat.isPrefixOf (c :: rest) then
      countOccL pat ((c :: rest).drop pat.length) + 1
    else
      countOccL pat rest
termination_by s.length
decreasing_by
  · simp only [List.length_drop, List.length_cons]
    have h1 : 0 < pat.length := List.length_pos.mpr h.1
    omega
  · simp only [List.length_cons]
    omega

/-- Join a list of pieces, inserting `sep` between consecutive pieces. -/
def joinWith (sep : List Char) : List (List Char) → List Char
  | [] => []
  | [x] => x
  | x :: y :: ys => x ++ sep ++ joinWith sep (y :: ys)

/-- Split a buffer into its lines at newline characters; like JS
`s.split('\n')`, the empty buffer yields one empty line. -/
def splitLines : List Char → List (List Char)
  | [] => [[]]
  | c :: rest =>
    match splitLines rest with
    | [] => [[]]
    | l :: ls => if c = '\n' then [] :: l :: ls else (c :: l) :: ls

/-- Rejoin lines with newline separators. -/
def joinLines (lines : List (List Char)) : List Char :=
  joinWith ['\n'] lines

/-- Number of lines of a buffer (the empty buffer has one line, matching
JS `split`). -/
def lineCount (content : List Char) : Nat :=
  (splitLines content).length

/-- The tagged directive variants, from `src/dual-ai-chat/types.ts`
(`NotepadAction`).  The TypeScript field `with` of `search_and_replace` is
named `withText` here because `with` is a Lean keyword; line numbers are
`Int` since TypeScript allows values below 1 to reach the interpreter. -/
inductive NotepadAction where
  | replace_all (content : List Char)
  | append (content : List Char)
  | prepend (content : List Char)
  | insert (line : Int) (content : List Char)
  | replace (line : Int) (content : List Char)
  | delete_line (line : Int)
  | search_and_replace (find : List Char) (withText : List Char) (all : Bool)
deriving DecidableEq

/-- Error text for an out-of-range `insert` line number. -/
def errInsertRange : List Char := "insert: line number out of range".data

/-- Error text for an out-of-range `replace` line number. -/
def errReplaceRange : List Char := "replace: line number out of range".data

/-- Error text for an out-of-range `delete_line` line number. -/
def errDeleteRange : List Char := "delete_line: line number out of range".data

/-- Error text for a `search_and_replace` whose find text is empty. -/
def errEmptyFind : List Char := "search_and_replace: find text is empty".data

/-- Error text for a `search_and_replace` whose find text does not occur. -/
def errFindNotFound : List Char := "search_and_replace: find text not found".data

/-- Modelled from the spec: the per-directive application step of the
interpreter `applyNotepadModifications` (its implementation file
`utils/appUtils.ts` is not in the provided sources; only its caller in
`hooks/useNotepadLogic.ts` and the `NotepadAction` type are).  Follows
section 4.2 of the spec literally: `replace_all`/`append`/`prepend` never
fail; the line-oriented directives fail exactly when the 1-based line
number is out of range, leaving the buffer unchanged; `search_and_replace`
fails on an empty or absent find text, and otherwise replaces the first or
all literal occurrences. -/
def applyAction (content : List Char) (a : NotepadAction) :
    List Char × Option (List Char) :=
  match a with
  | .replace_all c => (c, none)
  | .append c => (if content.isEmpty then c else content ++ '\n' :: c, none)
  | .prepend c => (if content.isEmpty then c else c ++ '\n' :: content, none)
  | .insert line c =>
    let lines := splitLines content
    if 1 ≤ line ∧ line ≤ (lines.length : Int) + 1 then
      let i := (line - 1).toNat
      (joinLines (lines.take i ++ c :: lines.drop i), none)
    else (content, some errInsertRange)
  | .replace line c =>
    let lines := splitLines content
    if 1 ≤ line ∧ line ≤ (lines.length : Int) then
      (joinLines (lines.set (line - 1).toNat c), none)
    else (content, some errReplaceRange)
  | .delete_line line =>
    let lines := splitLines content
    if 1 ≤ line ∧ line ≤ (lines.length : Int) then
      let i := (line - 1).toNat
      (joinLines (lines.take i ++ lines.drop (i + 1)), none)
    else (content, some errDeleteRange)
  | .search_and_replace find withText all =>
    if find = [] then (content, some errEmptyFind)
    else if containsSub find content then
      ((if all then replaceAllL find withText content
        else replaceFirstL find withText content), none)
    else (content, some errFindNotFound)

/-- The contribution of one directive's result to the error list. -/
def errList : Option (List Char) → List (List Char)
  | some e => [e]
  | none => []

/-- Modelled from the spec: `applyModifications(currentContent, directives)
→ {newContent, errors}` (the implementation file `utils/appUtils.ts` is
not in the provided sources).  A pure fold over the directive list: each
directive runs against the result of the previous one, every failed
directive appends exactly one error string, and the function is total. -/
def applyNotepadModifications (content : List Char)
    (mods : List NotepadAction) : List Char × List (List Char) :=
  mods.foldl
    (fun acc m => ((applyAction acc.1 m).1, acc.2 ++ errList (applyAction acc.1 m).2))
    (content, [])

/-- The sublist of directives that the interpreter applies successfully,
computed against the same succession of intermediate buffers as
`applyNotepadModifications`. -/
def succeededDirectives (content : List Char) :
    List NotepadAction → List NotepadAction
  | [] => []
  | m :: rest =>
    let r := applyAction content m
    if r.2.isSome then succeededDirectives r.1 rest
    else m :: succeededDirectives r.1 rest

/-- The number of directives that fail when the list runs against the same
succession of intermediate buffers as `applyNotepadModifications`. -/
def countFailed (content : List Char) : List NotepadAction → Nat
  | [] => 0
  | m :: rest =>
    let r := applyAction content m
    (if r.2.isSome then 1 else 0) + countFailed r.1 rest

/-- State of the linear undo/redo history kept by
`hooks/useNotepadLogic.ts`: the displayed content, the ordered list of
full-content snapshots, and the current index into it. -/
structure NotepadState where
  notepadContent : String
  notepadHistory : List String
  currentHistoryIndex : Nat
deriving DecidableEq

/-- The initial state of `useNotepadLogic(initialContent)`. -/
def initialNotepadState (initialContent : String) : NotepadState :=
  { notepadContent := initialContent
    notepadHistory := [initialContent]
    currentHistoryIndex := 0 }

/-- Function `_addHistoryEntry` from `hooks/useNotepadLogic.ts` (lines 24-37):
slice the history to the current index, append the new content, and move
the index to the new end. -/
def _addHistoryEntry (st : NotepadState) (newContent : String) : NotepadState :=
  let newHistorySlice := st.notepadHistory.take (st.currentHistoryIndex + 1)
  let newFullHistory := newHistorySlice ++ [newContent]
  { notepadContent := newContent
    notepadHistory := newFullHistory
    currentHistoryIndex := newFullHistory.length - 1 }

/-- Function `undoNotepad` from `hooks/useNotepadLogic.ts` (lines 79-86). -/
def undoNotepad (st : NotepadState) : NotepadState :=
  if 0 < st.currentHistoryIndex then
    let newIndex := st.currentHistoryIndex - 1
    { st with currentHistoryIndex := newIndex
              notepadContent := st.notepadHistory.getD newIndex "" }
  else st

/-- Function `redoNotepad` from `hooks/useNotepadLogic.ts` (lines 88-95). -/
def redoNotepad (st : NotepadState) : NotepadState :=
  if st.currentHistoryIndex < st.notepadHistory.length - 1 then
    let newIndex := st.currentHistoryIndex + 1
    { st with currentHistoryIndex := newIndex
              notepadContent := st.notepadHistory.getD newIndex "" }
  else st

/-- One notepad history operation.  Every editing path of the hook
(`processNotepadUpdateFromAI`, `clearNotepadContent`,
`setNotepadContentManual`) funnels through `_addHistoryEntry`, so an edit
is modelled by the content it commits. -/
inductive NotepadOp where
  | edit (newContent : String)
  | undo
  | redo

/-- Apply one history operation. -/
def applyNotepadOp (st : NotepadState) : NotepadOp → NotepadState
  | .edit c => _addHistoryEntry st c
  | .undo => undoNotepad st
  | .redo => redoNotepad st

/-- Apply a sequence of history operations in order. -/
def applyNotepadOps (st : NotepadState) (ops : List NotepadOp) : NotepadState :=
  ops.foldl applyNotepadOp st

/-- One saved notepad version, from `types.ts` (`NotepadVersion`).  The
`id` and `timestamp` fields (a random identifier and a wall-clock date,
both environment effects) are not modelled. -/
structure NotepadVersion where
  content : String
  author : Option String
  description : Option String
  wordCount : Nat
  lineCount : Nat
deriving DecidableEq

/-- Record `NotepadHistoryState` from `types.ts`.  `currentVersionIndex` is `Int`
because the hook uses `-1` for the empty record. -/
structure NotepadHistoryState where
  versions : List NotepadVersion
  currentVersionIndex : Int
deriving DecidableEq

/-- Constant `MAX_HISTORY_VERSIONS` from `hooks/useNotepadHistory.ts` (line 5). -/
def MAX_HISTORY_VERSIONS : Nat := 50

/-- Word count as computed in `addVersion`: split on whitespace and keep
the nonempty words. -/
def versionWordCount (content : String) : Nat :=
  ((content.split (fun ch => ch.isWhitespace)).filter (fun w => w ≠ "")).length

/-- Line count as computed in `addVersion`: split on newlines. -/
def versionLineCount (content : String) : Nat :=
  (content.splitOn "\n").length

/-- Build the version record `addVersion` pushes. -/
def mkVersion (content : String) (author : Option String)
    (description : Option String) : NotepadVersion :=
  { content := content, author := author, description := description
    wordCount := versionWordCount content
    lineCount := versionLineCount content }

/-- The versions list right after `addVersion`'s push, before the cap is
enforced: any redo tail beyond the current index is dropped, then the new
version is appended. -/
def pushedVersions (st : NotepadHistoryState) (v : NotepadVersion) :
    List NotepadVersion :=
  (if st.currentVersionIndex < (st.versions.length : Int) - 1 then
      st.versions.take (st.currentVersionIndex + 1).toNat
    else st.versions) ++ [v]

/-- The state-update step of `addVersion` in `hooks/useNotepadHistory.ts`
(lines 71-92): drop any redo tail, push the new version, cap the list at
`MAX_HISTORY_VERSIONS` keeping the newest entries (`slice(-MAX)`), and
point the index at the end. -/
def addVersion (st : NotepadHistoryState) (v : NotepadVersion) :
    NotepadHistoryState :=
  let pushed := pushedVersions st v
  let versions :=
    if MAX_HISTORY_VERSIONS < pushed.length then
      pushed.drop (pushed.length - MAX_HISTORY_VERSIONS)
    else pushed
  { versions := versions
    currentVersionIndex := (versions.length : Int) - 1 }

/-- The two AI personas (`MessageSender.Cognito` / `MessageSender.Muse` in
`types.ts`); `A` is the logic persona that opens each exchange pair and
performs synthesis, `B` is the creative persona. -/
inductive Persona where
  | A
  | B
deriving DecidableEq

/-- Enum `DiscussionMode` from `types.ts` (lines 63-66). -/
inductive DiscussionMode where
  | FixedTurns
  | AiDriven
deriving DecidableEq

/-- Modelled from the spec: the configuration of one `runDiscussion` call
(the orchestrator's implementation in `hooks/useChatLogic.ts` is not in
the provided sources; only a fragment, its caller and the
`FailedStepPayload` type are).  Termination policy, fixed turn count N,
the hard safety cap for AI-driven mode, the stop sentinel text, and the
cap on automatic silent retries (`MAX_AUTO_RETRIES`). -/
structure DiscussionConfig where
  mode : DiscussionMode
  fixedTurns : Nat
  safetyCap : Nat
  sentinel : List Char
  maxAutoRetries : Nat

/-- Modelled from the spec: the provider treated as a deterministic
oracle.  `out p t` is the raw text persona `p` produces at 0-based turn
`t`; `mods p t` are the notepad directives parsed from that output;
`synthOut` is the synthesis response. -/
structure ProviderEnv where
  out : Persona → Nat → List Char
  mods : Persona → Nat → List NotepadAction
  synthOut : List Char

/-- The record of one provider call issued by the orchestrator: which
persona, at which turn, whether it is the synthesis call, the
inter-persona transcript and the notepad snapshot the prompt was built
from, and how many attempts (1 + automatic silent retries) it took. -/
structure CallRec where
  persona : Persona
  turn : Nat
  isSynthesis : Bool
  transcript : List (List Char)
  notepad : List Char
  attempts : Nat
deriving DecidableEq

/-- The orchestrator's running state: completed turn pairs, issued calls,
inter-persona transcript, and current notepad snapshot. -/
structure RunState where
  done : Nat
  calls : List CallRec
  transcript : List (List Char)
  notepad : List Char
deriving DecidableEq

/-- Modelled from the spec and `FailedStepPayload` in `types.ts` (lines
46-61): the resumable-turn record built at a surfaced provider failure —
which persona was mid-turn, the turn index
(`currentTurnIndexForResume`), the transcript so far
(`discussionLogBeforeFailure`), and the pre-failure notepad snapshot. -/
structure FailedStep where
  persona : Persona
  turnIndex : Nat
  transcript : List (List Char)
  notepad : List Char
deriving DecidableEq

/-- Terminal status of a discussion run: success, cooperative
cancellation, or a surfaced provider failure. -/
inductive RunStatus where
  | completed
  | cancelled
  | failed
deriving DecidableEq

/-- The outcome of a discussion run. -/
structure DiscussionOutcome where
  status : RunStatus
  turnsCompleted : Nat
  calls : List CallRec
  transcript : List (List Char)
  notepad : List Char
  finalAnswer : Option (List Char)
  failedStep : Option FailedStep
deriving DecidableEq

/-- Modelled from the spec: the cooperative cancellation flag, observed at
turn boundaries.  `cancelAfter = some k` means the flag is set once `k`
turn pairs have completed; `none` means it is never set. -/
def shouldCancel (cancelAfter : Option Nat) (done : Nat) : Bool :=
  match cancelAfter with
  | none => false
  | some k => k ≤ done

/-- Outcome of a cancelled run: partial transcript and notepad preserved,
no final answer, no failure payload. -/
def mkCancelled (st : RunState) : DiscussionOutcome :=
  { status := .cancelled, turnsCompleted := st.done, calls := st.calls
    transcript := st.transcript, notepad := st.notepad
    finalAnswer := none, failedStep := none }

/-- Outcome of a run aborted by a surfaced provider failure. -/
def mkFailed (st : RunState) (pay : FailedStep) : DiscussionOutcome :=
  { status := .failed, turnsCompleted := st.done, calls := st.calls
    transcript := st.transcript, notepad := st.notepad
    finalAnswer := none, failedStep := some pay }

/-- Modelled from the spec: the final synthesis invocation of persona A
(checked against the cancellation flag like every provider call). -/
def doSynthesis (cancelAfter : Option Nat) (env : ProviderEnv)
    (st : RunState) : DiscussionOutcome :=
  if shouldCancel cancelAfter st.done then mkCancelled st
  else
    { status := .completed, turnsCompleted := st.done
      calls := st.calls ++
        [{ persona := .A, turn := st.done, isSynthesis := true
           transcript := st.transcript, notepad := st.notepad, attempts := 1 }]
      transcript := st.transcript, notepad := st.notepad
      finalAnswer := some env.synthOut, failedStep := none }

/-- Modelled from the spec: one inter-persona provider call with its
automatic retry wrapper.  `failCount p t` gives the number of initially
failing attempts of the call of persona `p` at turn `t`: when it is at
most `maxAutoRetries` the call eventually succeeds silently, the
persona's output is appended to the transcript and its directives applied
to the notepad; otherwise the error surfaces after `maxAutoRetries + 1`
attempts with a resumable `FailedStep` payload. -/
def doCall (cfg : DiscussionConfig) (env : ProviderEnv)
    (failCount : Persona → Nat → Nat) (p : Persona) (st : RunState) :
    Sum RunState (RunState × FailedStep) :=
  let fc := failCount p st.done
  let cr : CallRec :=
    { persona := p, turn := st.done, isSynthesis := false
      transcript := st.transcript, notepad := st.notepad
      attempts := min fc cfg.maxAutoRetries + 1 }
  if fc ≤ cfg.maxAutoRetries then
    .inl { st with
           calls := st.calls ++ [cr]
           transcript := st.transcript ++ [env.out p st.done]
           notepad := (applyNotepadModifications st.notepad (env.mods p st.done)).1 }
  else
    .inr ({ st with calls := st.calls ++ [cr] },
          { persona := p, turnIndex := st.done
            transcript := st.transcript, notepad := st.notepad })

/-- Modelled from the spec: the turn loop of the orchestrator.  `fuel` is
the number of turn pairs still allowed (N in fixed mode, the safety cap
in AI-driven mode); `resumeAtB` restarts the first iteration at persona
B's half of the turn (used only when resuming a failed step).  The
cancellation flag is checked at every turn boundary; when the fuel runs
out, synthesis is forced; in AI-driven mode persona B's raw output is
scanned for the stop sentinel by exact substring match and, when found,
synthesis follows at once. -/
def discussionLoop (cfg : DiscussionConfig) (env : ProviderEnv)
    (cancelAfter : Option Nat) (failCount : Persona → Nat → Nat) :
    Nat → Bool → RunState → DiscussionOutcome
  | fuel, resumeAtB, st =>
    if shouldCancel cancelAfter st.done then mkCancelled st
    else
      match fuel with
      | 0 => doSynthesis cancelAfter env st
      | fuel' + 1 =>
        let afterA : Sum RunState (RunState × FailedStep) :=
          if resumeAtB then .inl st else doCall cfg env failCount .A st
        match afterA with
        | .inr (st', pay) => mkFailed st' pay
        | .inl st1 =>
          match doCall cfg env failCount .B st1 with
          | .inr (st', pay) => mkFailed st' pay
          | .inl st2 =>
            let st3 := { st2 with done := st2.done + 1 }
            if cfg.mode = DiscussionMode.AiDriven ∧
                containsSub cfg.sentinel (env.out .B st.done) then
              doSynthesis cancelAfter env st3
            else
              discussionLoop cfg env cancelAfter failCount fuel' false st3

/-- The natural turn-pair limit of a run: N in fixed mode, the safety cap
in AI-driven mode. -/
def turnLimit (cfg : DiscussionConfig) : Nat :=
  match cfg.mode with
  | .FixedTurns => cfg.fixedTurns
  | .AiDriven => cfg.safetyCap

/-- Modelled from the spec: `runDiscussion` — run the turn loop from an
empty transcript and the given notepad snapshot. -/
def runDiscussion (cfg : DiscussionConfig) (env : ProviderEnv)
    (cancelAfter : Option Nat) (failCount : Persona → Nat → Nat)
    (notepad0 : List Char) : DiscussionOutcome :=
  discussionLoop cfg env cancelAfter failCount (turnLimit cfg) false
    { done := 0, calls := [], transcript := [], notepad := notepad0 }

/-- Modelled from the spec: manual retry of a surfaced failure — resume
the loop at the exact recorded turn, persona, transcript and notepad. -/
def retryFailedStep (cfg : DiscussionConfig) (env : ProviderEnv)
    (cancelAfter : Option Nat) (failCount : Persona → Nat → Nat)
    (pay : FailedStep) : DiscussionOutcome :=
  discussionLoop cfg env cancelAfter failCount
    (turnLimit cfg - pay.turnIndex) (decide (pay.persona = .B))
    { done := pay.turnIndex, calls := []
      transcript := pay.transcript, notepad := pay.notepad }

/-- The identifying shape of a call record: persona, turn, synthesis
flag. -/
def callShape (c : CallRec) : Persona × Nat × Bool :=
  (c.persona, c.turn, c.isSynthesis)

/-- The shapes of the calls of `n` full exchange pairs starting at turn
`d`: A then B at each turn, no synthesis. -/
def pairShapes : Nat → Nat → List (Persona × Nat × Bool)
  | _, 0 => []
  | d, n + 1 =>
    (Persona.A, d, false) :: (Persona.B, d, false) :: pairShapes (d + 1) n

/-- The inter-persona transcript produced by `n` clean exchange pairs
starting at turn `d`. -/
def turnsTranscript (env : ProviderEnv) : Nat → Nat → List (List Char)
  | _, 0 => []
  | d, n + 1 => env.out .A d :: env.out .B d :: turnsTranscript env (d + 1) n

/-- The notepad after applying the directives of `n` clean exchange pairs
starting at turn `d` to `np`. -/
def turnsNotepad (env : ProviderEnv) : Nat → Nat → List Char → List Char
  | _, 0, np => np
  | d, n + 1, np =>
    turnsNotepad env (d + 1) n
      ((applyNotepadModifications
        ((applyNotepadModifications np (env.mods .A d)).1)
        (env.mods .B d)).1)

/-- The call records of `n` clean (single-attempt) exchange pairs starting
at turn `d` from transcript `tr` and notepad `np`. -/
def cleanCalls (env : ProviderEnv) : Nat → Nat → List (List Char) → List Char → List CallRec
  | _, 0, _, _ => []
  | d, n + 1, tr, np =>
    let cA : CallRec :=
      { persona := .A, turn := d, isSynthesis := false
        transcript := tr, notepad := np, attempts := 1 }
    let tr1 := tr ++ [env.out .A d]
    let np1 := (applyNotepadModifications np (env.mods .A d)).1
    let cB : CallRec :=
      { persona := .B, turn := d, isSynthesis := false
        transcript := tr1, notepad := np1, attempts := 1 }
    let tr2 := tr1 ++ [env.out .B d]
    let np2 := (applyNotepadModifications np1 (env.mods .B d)).1
    cA :: cB :: cleanCalls env (d + 1) n tr2 np2

end DualAiChat

namespace DualAiChat

theorem applyMods_nil (c : List Char) : applyNotepadModifications c [] = (c, []) := rfl

theorem applyMods_acc (mods : List NotepadAction) :
    ∀ (c : List Char) (errs : List (List Char)),
      mods.foldl
        (fun acc m => ((applyAction acc.1 m).1, acc.2 ++ errList (applyAction acc.1 m).2))
        (c, errs)
      = ((applyNotepadModifications c mods).1,
         errs ++ (applyNotepadModifications c mods).2) := by
  induction mods with
  | nil => intro c errs; simp [applyNotepadModifications]
  | cons m rest ih =>
    intro c errs
    simp only [List.foldl_cons]
    rw [ih]
    conv_rhs => rw [applyNotepadModifications]
    simp only [List.foldl_cons]
    rw [ih]
    simp [List.append_assoc]

theorem applyMods_cons (c : List Char) (m : NotepadAction) (rest : List NotepadAction) :
    applyNotepadModifications c (m :: rest) =
      ((applyNotepadModifications (applyAction c m).1 rest).1,
       errList (applyAction c m).2
         ++ (applyNotepadModifications (applyAction c m).1 rest).2) := by
  rw [applyNotepadModifications]
  simp only [List.foldl_cons]
  rw [applyMods_acc]
  simp

theorem applyMods_singleton (c : List Char) (m : NotepadAction) :
    applyNotepadModifications c [m] = ((applyAction c m).1, errList (applyAction c m).2) := by
  rw [applyMods_cons, applyMods_nil]
  simp

end DualAiChat

namespace DualAiChat

/-- C1: for every buffer and every line-oriented directive whose line
number is out of range (line < 1, or line > lineCount+1 for insert, or
line > lineCount for replace/delete_line), `applyNotepadModifications`
leaves the content unchanged and appends exactly one error entry naming
the directive; in particular for buffer "a\nb\nc" and replace(5, "x"). -/
theorem spec_C1 :
    (∀ (content c : List Char) (line : Int),
        line < 1 ∨ (lineCount content : Int) + 1 < line →
        applyNotepadModifications content [.insert line c]
          = (content, [errInsertRange]))
    ∧ (∀ (content c : List Char) (line : Int),
        line < 1 ∨ (lineCount content : Int) < line →
        applyNotepadModifications content [.replace line c]
          = (content, [errReplaceRange]))
    ∧ (∀ (content : List Char) (line : Int),
        line < 1 ∨ (lineCount content : Int) < line →
        applyNotepadModifications content [.delete_line line]
          = (content, [errDeleteRange]))
    ∧ applyNotepadModifications ("a\nb\nc").data [.replace 5 ("x").data]
        = (("a\nb\nc").data, [errReplaceRange]) := by
  refine ⟨?_, ?_, ?_, ?_⟩
  · intro content c line h
    rw [applyMods_singleton]
    have hc : ¬ (1 ≤ line ∧ line ≤ ((splitLines content).length : Int) + 1) := by
      simp only [lineCount] at h; omega
    simp [applyAction, hc, errList]
  · intro content c line h
    rw [applyMods_singleton]
    have hc : ¬ (1 ≤ line ∧ line ≤ ((splitLines content).length : Int)) := by
      simp only [lineCount] at h; omega
    simp [applyAction, hc, errList]
  · intro content line h
    rw [applyMods_singleton]
    have hc : ¬ (1 ≤ line ∧ line ≤ ((splitLines content).length : Int)) := by
      simp only [lineCount] at h; omega
    simp [applyAction, hc, errList]
  · decide

/-- Witness for C1: all three out-of-range cases at concrete inputs. -/
theorem spec_C1_witness :
    applyNotepadModifications ("a").data [.insert 0 ("x").data]
        = (("a").data, [errInsertRange])
    ∧ applyNotepadModifications ("a").data [.replace 2 ("x").data]
        = (("a").data, [errReplaceRange])
    ∧ applyNotepadModifications ("a").data [.delete_line (-1)]
        = (("a").data, [errDeleteRange]) :=
  ⟨spec_C1.1 ("a").data ("x").data 0 (by left; decide),
   spec_C1.2.1 ("a").data ("x").data 2 (by right; decide),
   spec_C1.2.2.1 ("a").data (-1) (by left; decide)⟩

/-- C2: directives execute strictly in the order given, each against the
result of the previous one, and applying them one at a time (feeding each
output to the next input) yields the same final content as one batch
`applyNotepadModifications` call. -/
theorem spec_C2 (content : List Char) (mods : List NotepadAction) :
    (applyNotepadModifications content mods).1 =
      mods.foldl (fun c m => (applyNotepadModifications c [m]).1) content
    ∧ ∀ (c : List Char) (m : NotepadAction) (rest : List NotepadAction),
        applyNotepadModifications c (m :: rest) =
          ((applyNotepadModifications (applyAction c m).1 rest).1,
           errList (applyAction c m).2
             ++ (applyNotepadModifications (applyAction c m).1 rest).2) := by
  constructor
  · induction mods generalizing content with
    | nil => simp [applyNotepadModifications]
    | cons m rest ih =>
      rw [applyMods_cons]
      simp only [List.foldl_cons]
      rw [applyMods_singleton]
      exact ih _
  · intro c m rest
    exact applyMods_cons c m rest

end DualAiChat

namespace DualAiChat

theorem applyAction_fail_eq (c : List Char) (m : NotepadAction)
    (h : (applyAction c m).2.isSome = true) : (applyAction c m).1 = c := by
  cases m <;> simp only [applyAction] at h ⊢
  case replace_all => simp at h
  case append => simp at h
  case prepend => simp at h
  case insert l ct =>
    by_cases hc : 1 ≤ l ∧ l ≤ ((splitLines c).length : Int) + 1
    · simp [hc] at h
    · simp [hc]
  case replace l ct =>
    by_cases hc : 1 ≤ l ∧ l ≤ ((splitLines c).length : Int)
    · simp [hc] at h
    · simp [hc]
  case delete_line l =>
    by_cases hc : 1 ≤ l ∧ l ≤ ((splitLines c).length : Int)
    · simp [hc] at h
    · simp [hc]
  case search_and_replace f w all =>
    split at h
    · simp_all
    · split at h <;> simp_all

/-- C4: `applyNotepadModifications` is total by construction; each failed
directive contributes exactly one error string (the error count equals
the number of failing directives), and the final content equals the
result of applying exactly the directives that succeeded, in order, which
themselves produce no errors — directive errors never escalate. -/
theorem spec_C4 (content : List Char) (mods : List NotepadAction) :
    ((applyNotepadModifications content mods).2).length = countFailed content mods
    ∧ (applyNotepadModifications content mods).1
        = (applyNotepadModifications content (succeededDirectives content mods)).1
    ∧ (applyNotepadModifications content (succeededDirectives content mods)).2 = [] := by
  induction mods generalizing content with
  | nil => simp [applyNotepadModifications, succeededDirectives, countFailed]
  | cons m rest ih =>
    rw [applyMods_cons]
    by_cases h : (applyAction content m).2.isSome
    · have heq : (applyAction content m).1 = content := applyAction_fail_eq content m h
      obtain ⟨e, he⟩ := Option.isSome_iff_exists.mp h
      have hsucc : succeededDirectives content (m :: rest)
          = succeededDirectives content rest := by
        rw [succeededDirectives]
        simp [h, heq]
      have hcount : countFailed content (m :: rest) = 1 + countFailed content rest := by
        rw [countFailed]
        simp [h, heq]
      rw [hsucc, hcount]
      have := ih content
      refine ⟨?_, ?_, this.2.2⟩
      · simp [he, errList, heq, this.1, Nat.add_comm]
      · simp [heq, this.2.1]
    · have hnone : (applyAction content m).2 = none := Option.not_isSome_iff_eq_none.mp h
      have hsucc : succeededDirectives content (m :: rest)
          = m :: succeededDirectives (applyAction content m).1 rest := by
        rw [succeededDirectives]
        simp [h]
      have hcount : countFailed content (m :: rest)
          = countFailed (applyAction content m).1 rest := by
        rw [countFailed]
        simp [h]
      rw [hsucc, hcount]
      have := ih (applyAction content m).1
      refine ⟨?_, ?_, ?_⟩
      · simp [hnone, errList, this.1]
      · rw [applyMods_cons]
        simp [this.2.1]
      · rw [applyMods_cons]
        simp [hnone, errList, this.2.2]

end DualAiChat

namespace DualAiChat

theorem joinWith_cons (sep x : List Char) (ps : List (List Char)) (h : ps ≠ []) :
    joinWith sep (x :: ps) = x ++ sep ++ joinWith sep ps := by
  match ps, h with
  | y :: ys, _ => rfl

theorem replaceAllL_decomp (pat repl : List Char) (hp : pat ≠ []) :
    ∀ (n : Nat) (s : List Char), s.length ≤ n →
      ∃ ps : List (List Char), ps ≠ [] ∧ ps.length = countOccL pat s + 1 ∧
        s = joinWith pat ps ∧ replaceAllL pat repl s = joinWith repl ps := by
  intro n
  induction n with
  | zero =>
    intro s hs
    have hsnil : s = [] := List.length_eq_zero.mp (Nat.le_zero.mp hs)
    subst hsnil
    exact ⟨[[]], by simp, by simp [countOccL, joinWith], by simp [joinWith],
           by simp [replaceAllL, joinWith]⟩
  | succ n ih =>
    intro s hs
    match s with
    | [] =>
      exact ⟨[[]], by simp, by simp [countOccL, joinWith], by simp [joinWith],
             by simp [replaceAllL, joinWith]⟩
    | c :: rest =>
      by_cases h : pat ≠ [] ∧ pat.isPrefixOf (c :: rest)
      · obtain ⟨t, ht⟩ := List.isPrefixOf_iff_prefix.mp h.2
        have hdrop : (c :: rest).drop pat.length = t := by
          rw [← ht, List.drop_left]
        have hplen : 0 < pat.length := List.length_pos.mpr hp
        have htlen : t.length ≤ n := by
          have : pat.length + t.length = rest.length + 1 := by
            have := congrArg List.length ht
            simpa using this
          simp only [List.length_cons] at hs
          omega
        obtain ⟨ps, hps0, hlen, hsplit, hrep⟩ := ih t htlen
        refine ⟨[] :: ps, by simp, ?_, ?_, ?_⟩
        · rw [countOccL]
          simp only [dif_pos h, hdrop]
          simp [hlen]
        · rw [joinWith_cons pat [] ps hps0]
          simp [← hsplit, ← ht]
        · rw [replaceAllL]
          simp only [dif_pos h, hdrop]
          rw [joinWith_cons repl [] ps hps0]
          simp [hrep]
      · have hnp : ¬ pat.isPrefixOf (c :: rest) := by
          intro hc
          exact h ⟨hp, hc⟩
        obtain ⟨ps, hps0, hlen, hsplit, hrep⟩ := ih rest
          (by simp only [List.length_cons] at hs; omega)
        match ps, hps0 with
        | p0 :: ps', _ =>
          refine ⟨(c :: p0) :: ps', by simp, ?_, ?_, ?_⟩
          · rw [countOccL]
            simp only [dif_neg h]
            simpa using hlen
          · cases ps' with
            | nil =>
              simp only [joinWith] at hsplit ⊢
              rw [hsplit]
            | cons q qs =>
              rw [joinWith_cons pat (c :: p0) (q :: qs) (by simp)]
              rw [joinWith_cons pat p0 (q :: qs) (by simp)] at hsplit
              simp [hsplit]
          · rw [replaceAllL]
            simp only [dif_neg h]
            cases ps' with
            | nil =>
              simp only [joinWith] at hrep ⊢
              rw [hrep]
            | cons q qs =>
              rw [joinWith_cons repl (c :: p0) (q :: qs) (by simp)]
              rw [joinWith_cons repl p0 (q :: qs) (by simp)] at hrep
              simp [hrep]

end DualAiChat

namespace DualAiChat

/-- C3: for `search_and_replace(find, with, all?)`: an absent find text
leaves the buffer unchanged with exactly one error; with `all = true` and
`find` occurring k times (k = `countOccL`, literal matching), exactly the
k occurrences are replaced — the buffer splits into k+1 pieces joined by
`find`, and the result is the same pieces joined by `with`; an empty find
text is always an error. -/
theorem spec_C3 :
    (∀ (content find withText : List Char) (all : Bool),
        find ≠ [] → containsSub find content = false →
        applyNotepadModifications content [.search_and_replace find withText all]
          = (content, [errFindNotFound]))
    ∧ (∀ (content find withText : List Char),
        find ≠ [] → containsSub find content = true →
        ∃ ps : List (List Char),
          ps.length = countOccL find content + 1 ∧
          content = joinWith find ps ∧
          applyNotepadModifications content
              [.search_and_replace find withText true]
            = (joinWith withText ps, []))
    ∧ (∀ (content withText : List Char) (all : Bool),
        applyNotepadModifications content [.search_and_replace [] withText all]
          = (content, [errEmptyFind])) := by
  refine ⟨?_, ?_, ?_⟩
  · intro content find withText all h1 h2
    rw [applyMods_singleton]
    simp [applyAction, h1, h2, errList]
  · intro content find withText h1 h2
    obtain ⟨ps, _, hlen, hsplit, hrep⟩ :=
      replaceAllL_decomp find withText h1 content.length content le_rfl
    refine ⟨ps, hlen, hsplit, ?_⟩
    rw [applyMods_singleton]
    simp [applyAction, h1, h2, errList, hrep]
  · intro content withText all
    rw [applyMods_singleton]
    simp [applyAction, errList]

/-- Witness for C3 at concrete inputs: find "z" absent from "abc"; find
"ab" occurring twice in "abcab" with all = true; empty find on "abc". -/
theorem spec_C3_witness :
    applyNotepadModifications ("abc").data
        [.search_and_replace ("z").data ("Q").data false]
      = (("abc").data, [errFindNotFound])
    ∧ (∃ ps : List (List Char),
        ps.length = countOccL ("ab").data ("abcab").data + 1 ∧
        ("abcab").data = joinWith ("ab").data ps ∧
        applyNotepadModifications ("abcab").data
            [.search_and_replace ("ab").data ("Z").data true]
          = (joinWith ("Z").data ps, []))
    ∧ applyNotepadModifications ("abc").data
        [.search_and_replace [] ("Z").data true]
      = (("abc").data, [errEmptyFind]) :=
  ⟨spec_C3.1 ("abc").data ("z").data ("Q").data false (by decide) (by decide),
   spec_C3.2.1 ("abcab").data ("ab").data ("Z").data (by decide) (by decide),
   spec_C3.2.2 ("abc").data ("Z").data true⟩

end DualAiChat

namespace DualAiChat

theorem notepadInv_applyOp (st : NotepadState)
    (h1 : st.currentHistoryIndex < st.notepadHistory.length)
    (h2 : st.notepadContent = st.notepadHistory.getD st.currentHistoryIndex "")
    (op : NotepadOp) :
    (applyNotepadOp st op).currentHistoryIndex
        < (applyNotepadOp st op).notepadHistory.length ∧
    (applyNotepadOp st op).notepadContent
      = (applyNotepadOp st op).notepadHistory.getD
          (applyNotepadOp st op).currentHistoryIndex "" := by
  cases op with
  | edit c =>
    simp only [applyNotepadOp, _addHistoryEntry]
    have htake : (st.notepadHistory.take (st.currentHistoryIndex + 1)).length
        = st.currentHistoryIndex + 1 := by
      rw [List.length_take]; omega
    constructor
    · simp [htake]
    · simp only [List.length_append, htake, List.length_cons, List.length_nil]
      have : st.currentHistoryIndex + 1 + 1 - 1 = st.currentHistoryIndex + 1 := by omega
      rw [this, ← htake]
      simp [List.getD, List.getElem?_append_right]
  | undo =>
    simp only [applyNotepadOp, undoNotepad]
    split
    · constructor
      · simp; omega
      · simp
    · exact ⟨h1, h2⟩
  | redo =>
    simp only [applyNotepadOp, redoNotepad]
    split
    · next hlt =>
      constructor
      · simp; omega
      · simp
    · exact ⟨h1, h2⟩

theorem notepadInv_applyOps (ops : List NotepadOp) :
    ∀ (st : NotepadState),
      st.currentHistoryIndex < st.notepadHistory.length →
      st.notepadContent = st.notepadHistory.getD st.currentHistoryIndex "" →
      (applyNotepadOps st ops).currentHistoryIndex
          < (applyNotepadOps st ops).notepadHistory.length ∧
      (applyNotepadOps st ops).notepadContent
        = (applyNotepadOps st ops).notepadHistory.getD
            (applyNotepadOps st ops).currentHistoryIndex "" := by
  induction ops with
  | nil => intro st' h1 h2; exact ⟨h1, h2⟩
  | cons op rest ih =>
    intro st' h1 h2
    have h := notepadInv_applyOp st' h1 h2 op
    exact ih _ h.1 h.2

/-- C9: starting from any seed content and applying any sequence of edits,
undos and redos, the current history index always points at the content
currently displayed (`notepadContent = notepadHistory[currentHistoryIndex]`
and the index is in range), and committing a new edit discards every redo
entry beyond the current index before appending the new content (so the
new index sits at the new end). -/
theorem spec_C9 (init : String) (ops : List NotepadOp) :
    ((applyNotepadOps (initialNotepadState init) ops).currentHistoryIndex
        < (applyNotepadOps (initialNotepadState init) ops).notepadHistory.length
      ∧ (applyNotepadOps (initialNotepadState init) ops).notepadContent
        = (applyNotepadOps (initialNotepadState init) ops).notepadHistory.getD
            (applyNotepadOps (initialNotepadState init) ops).currentHistoryIndex "")
    ∧ ∀ c : String,
        (_addHistoryEntry (applyNotepadOps (initialNotepadState init) ops) c).notepadHistory
          = (applyNotepadOps (initialNotepadState init) ops).notepadHistory.take
              ((applyNotepadOps (initialNotepadState init) ops).currentHistoryIndex + 1)
            ++ [c]
        ∧ (_addHistoryEntry (applyNotepadOps (initialNotepadState init) ops) c).notepadContent = c
        ∧ (_addHistoryEntry (applyNotepadOps (initialNotepadState init) ops) c).currentHistoryIndex
          = (applyNotepadOps (initialNotepadState init) ops).currentHistoryIndex + 1 := by
  have hinv := notepadInv_applyOps ops (initialNotepadState init)
    (by simp [initialNotepadState]) (by simp [initialNotepadState])
  refine ⟨hinv, ?_⟩
  intro c
  refine ⟨rfl, rfl, ?_⟩
  simp only [_addHistoryEntry, List.length_append, List.length_take,
    List.length_cons, List.length_nil]
  omega

end DualAiChat


namespace DualAiChat

theorem addVersion_versions (st : NotepadHistoryState) (v : NotepadVersion) :
    (addVersion st v).versions
      = (pushedVersions st v).drop
          ((pushedVersions st v).length - MAX_HISTORY_VERSIONS) := by
  rw [addVersion]
  by_cases h : MAX_HISTORY_VERSIONS < (pushedVersions st v).length
  · simp only [if_pos h]
  · simp only [if_neg h]
    have hz : (pushedVersions st v).length - MAX_HISTORY_VERSIONS = 0 := by omega
    rw [hz, List.drop_zero]

theorem addVersion_index (st : NotepadHistoryState) (v : NotepadVersion) :
    (addVersion st v).currentVersionIndex
      = ((addVersion st v).versions.length : Int) - 1 := rfl

/-- C10: after every `addVersion` the stored versions list is nonempty and
holds at most `MAX_HISTORY_VERSIONS` (50) entries; the kept entries are
exactly the newest entries of the pushed list (the oldest are dropped
when the cap is exceeded); and `currentVersionIndex` points at the last
position, which holds the version just added. -/
theorem spec_C10 (st : NotepadHistoryState) (v : NotepadVersion) :
    (addVersion st v).versions.length ≤ MAX_HISTORY_VERSIONS
    ∧ (addVersion st v).versions ≠ []
    ∧ (addVersion st v).currentVersionIndex
        = ((addVersion st v).versions.length : Int) - 1
    ∧ (addVersion st v).versions
        = (pushedVersions st v).drop
            ((pushedVersions st v).length - MAX_HISTORY_VERSIONS)
    ∧ (addVersion st v).versions.getLast? = some v := by
  obtain ⟨pre, hpre⟩ : ∃ pre, pushedVersions st v = pre ++ [v] := ⟨_, rfl⟩
  have hplen : (pushedVersions st v).length = pre.length + 1 := by
    rw [hpre]; simp
  have hmax : 0 < MAX_HISTORY_VERSIONS := by simp [MAX_HISTORY_VERSIONS]
  refine ⟨?_, ?_, addVersion_index st v, addVersion_versions st v, ?_⟩
  · rw [addVersion_versions, List.length_drop]
    omega
  · rw [addVersion_versions]
    intro hnil
    have := congrArg List.length hnil
    rw [List.length_drop] at this
    simp only [List.length_nil] at this
    omega
  · rw [addVersion_versions, hpre]
    rw [List.drop_append_of_le_length (by rw [← hpre]; omega)]
    rw [List.getLast?_concat]

end DualAiChat

namespace DualAiChat

theorem loop_clean (cfg : DiscussionConfig) (env : ProviderEnv)
    (failCount : Persona → Nat → Nat) :
    ∀ (fuel : Nat) (st : RunState),
      (∀ p t, st.done ≤ t → t < st.done + fuel → failCount p t = 0) →
      (∀ j, st.done ≤ j → j < st.done + fuel →
        cfg.mode = DiscussionMode.AiDriven →
        containsSub cfg.sentinel (env.out .B j) = false) →
      discussionLoop cfg env none failCount fuel false st =
        { status := .completed
          turnsCompleted := st.done + fuel
          calls := st.calls ++ cleanCalls env st.done fuel st.transcript st.notepad
            ++ [{ persona := .A, turn := st.done + fuel, isSynthesis := true
                  transcript := st.transcript ++ turnsTranscript env st.done fuel
                  notepad := turnsNotepad env st.done fuel st.notepad
                  attempts := 1 }]
          transcript := st.transcript ++ turnsTranscript env st.done fuel
          notepad := turnsNotepad env st.done fuel st.notepad
          finalAnswer := some env.synthOut
          failedStep := none } := by
  intro fuel
  induction fuel with
  | zero =>
    intro st hf hs
    rw [discussionLoop]
    simp [shouldCancel, doSynthesis, cleanCalls, turnsTranscript, turnsNotepad]
  | succ fuel ih =>
    intro st hf hs
    rw [discussionLoop]
    have hA : failCount .A st.done = 0 := hf .A st.done le_rfl (by omega)
    have hB : failCount .B st.done = 0 := hf .B st.done le_rfl (by omega)
    simp only [shouldCancel, Bool.false_eq_true, if_false, doCall, hA, hB,
      Nat.zero_min, Nat.zero_le, if_pos, Bool.false_eq_true]
    rw [if_neg]
    · rw [ih]
      · have h1 : st.done + 1 + fuel = st.done + (fuel + 1) := by omega
        simp only [cleanCalls, turnsTranscript, turnsNotepad, h1]
        simp [List.append_assoc]
      · intro p t h1 h2
        dsimp only at h1 h2
        exact hf p t (by omega) (by omega)
      · intro j h1 h2 hm
        dsimp only at h1 h2
        exact hs j (by omega) (by omega) hm
    · intro hcon
      exact absurd hcon.2 (by simp [hs st.done le_rfl (by omega) hcon.1])

end DualAiChat

namespace DualAiChat

theorem cleanCalls_map_shape (env : ProviderEnv) :
    ∀ (n d : Nat) (tr : List (List Char)) (np : List Char),
      (cleanCalls env d n tr np).map callShape = pairShapes d n := by
  intro n
  induction n with
  | zero => intro d tr np; simp [cleanCalls, pairShapes]
  | succ n ih =>
    intro d tr np
    simp only [cleanCalls, pairShapes, List.map_cons, callShape]
    rw [ih]

theorem cleanCalls_no_synth (env : ProviderEnv) :
    ∀ (n d : Nat) (tr : List (List Char)) (np : List Char),
      ∀ c ∈ cleanCalls env d n tr np, c.isSynthesis = false := by
  intro n
  induction n with
  | zero => intro d tr np c hc; simp [cleanCalls] at hc
  | succ n ih =>
    intro d tr np c hc
    simp only [cleanCalls, List.mem_cons] at hc
    rcases hc with h | h | h
    · rw [h]
    · rw [h]
    · exact ih _ _ _ c h

/-- C5: in fixed-turns mode with N ≥ 1, regardless of the personas'
output content, exactly N full exchange pairs (persona A then persona B)
execute, `turnsCompleted` equals exactly N, and exactly one synthesis
call — a final persona-A invocation producing the user-visible answer —
follows the Nth pair. -/
theorem spec_C5 (cfg : DiscussionConfig) (env : ProviderEnv)
    (notepad0 : List Char)
    (hmode : cfg.mode = DiscussionMode.FixedTurns)
    (hN : 1 ≤ cfg.fixedTurns) :
    (runDiscussion cfg env none (fun _ _ => 0) notepad0).turnsCompleted
        = cfg.fixedTurns
    ∧ (runDiscussion cfg env none (fun _ _ => 0) notepad0).status
        = RunStatus.completed
    ∧ (runDiscussion cfg env none (fun _ _ => 0) notepad0).calls.map callShape
        = pairShapes 0 cfg.fixedTurns ++ [(Persona.A, cfg.fixedTurns, true)]
    ∧ ((runDiscussion cfg env none (fun _ _ => 0) notepad0).calls.filter
        (fun c => c.isSynthesis)).length = 1
    ∧ (runDiscussion cfg env none (fun _ _ => 0) notepad0).finalAnswer
        = some env.synthOut := by
  have hlim : turnLimit cfg = cfg.fixedTurns := by
    rw [turnLimit, hmode]
  rw [runDiscussion, hlim]
  rw [loop_clean cfg env _ cfg.fixedTurns _
    (fun _ _ _ _ => rfl)
    (fun j _ _ hm => absurd (hmode ▸ hm) (by simp))]
  dsimp only
  simp only [Nat.zero_add, List.nil_append]
  refine ⟨trivial, trivial, ?_, ?_, trivial⟩
  · simp only [List.map_append, cleanCalls_map_shape, List.map_cons,
      List.map_nil, callShape]
  · simp only [List.filter_append]
    have h0 : (cleanCalls env 0 cfg.fixedTurns [] notepad0).filter
        (fun c => c.isSynthesis) = [] := by
      rw [List.filter_eq_nil_iff]
      intro c hc
      simp [cleanCalls_no_synth env _ _ _ _ c hc]
    simp [h0]

end DualAiChat

namespace DualAiChat

/-- Witness for C5: fixed mode, N = 1, concrete personas. -/
theorem spec_C5_witness :
    (runDiscussion
        { mode := .FixedTurns, fixedTurns := 1, safetyCap := 5
          sentinel := ("DONE").data, maxAutoRetries := 2 }
        { out := fun _ _ => ("hi").data, mods := fun _ _ => []
          synthOut := ("ans").data }
        none (fun _ _ => 0) ("np").data).turnsCompleted = 1
    ∧ (runDiscussion
        { mode := .FixedTurns, fixedTurns := 1, safetyCap := 5
          sentinel := ("DONE").data, maxAutoRetries := 2 }
        { out := fun _ _ => ("hi").data, mods := fun _ _ => []
          synthOut := ("ans").data }
        none (fun _ _ => 0) ("np").data).status = RunStatus.completed
    ∧ (runDiscussion
        { mode := .FixedTurns, fixedTurns := 1, safetyCap := 5
          sentinel := ("DONE").data, maxAutoRetries := 2 }
        { out := fun _ _ => ("hi").data, mods := fun _ _ => []
          synthOut := ("ans").data }
        none (fun _ _ => 0) ("np").data).calls.map callShape
        = pairShapes 0 1 ++ [(Persona.A, 1, true)]
    ∧ ((runDiscussion
        { mode := .FixedTurns, fixedTurns := 1, safetyCap := 5
          sentinel := ("DONE").data, maxAutoRetries := 2 }
        { out := fun _ _ => ("hi").data, mods := fun _ _ => []
          synthOut := ("ans").data }
        none (fun _ _ => 0) ("np").data).calls.filter
          (fun c => c.isSynthesis)).length = 1
    ∧ (runDiscussion
        { mode := .FixedTurns, fixedTurns := 1, safetyCap := 5
          sentinel := ("DONE").data, maxAutoRetries := 2 }
        { out := fun _ _ => ("hi").data, mods := fun _ _ => []
          synthOut := ("ans").data }
        none (fun _ _ => 0) ("np").data).finalAnswer = some ("ans").data :=
  spec_C5 _ _ _ rfl (by decide)

theorem loop_cancel_now (cfg : DiscussionConfig) (env : ProviderEnv)
    (cancelAfter : Option Nat) (failCount : Persona → Nat → Nat)
    (fuel : Nat) (b : Bool) (st : RunState)
    (h : shouldCancel cancelAfter st.done = true) :
    discussionLoop cfg env cancelAfter failCount fuel b st = mkCancelled st := by
  rw [discussionLoop.eq_def]
  dsimp only
  rw [h]
  simp

theorem loop_cancel (cfg : DiscussionConfig) (env : ProviderEnv)
    (failCount : Persona → Nat → Nat) (k : Nat) :
    ∀ (fuel : Nat) (st : RunState),
      st.done ≤ k → k ≤ st.done + fuel →
      (∀ p t, st.done ≤ t → t < k → failCount p t = 0) →
      (∀ j, st.done ≤ j → j < k → cfg.mode = DiscussionMode.AiDriven →
        containsSub cfg.sentinel (env.out .B j) = false) →
      discussionLoop cfg env (some k) failCount fuel false st =
        { status := .cancelled
          turnsCompleted := k
          calls := st.calls
            ++ cleanCalls env st.done (k - st.done) st.transcript st.notepad
          transcript := st.transcript ++ turnsTranscript env st.done (k - st.done)
          notepad := turnsNotepad env st.done (k - st.done) st.notepad
          finalAnswer := none
          failedStep := none } := by
  intro fuel
  induction fuel with
  | zero =>
    intro st h1 h2 hf hs
    have hk : k = st.done := by omega
    subst hk
    rw [loop_cancel_now _ _ _ _ _ _ _ (by simp [shouldCancel])]
    simp [mkCancelled, cleanCalls, turnsTranscript, turnsNotepad]
  | succ fuel ih =>
    intro st h1 h2 hf hs
    by_cases hdone : k = st.done
    · rw [loop_cancel_now _ _ _ _ _ _ _ (by simp [shouldCancel]; omega)]
      rw [hdone]
      simp [mkCancelled, cleanCalls, turnsTranscript, turnsNotepad]
    · have hlt : st.done < k := by omega
      rw [discussionLoop]
      have hcanc : shouldCancel (some k) st.done = false := by
        simp [shouldCancel]; omega
      rw [hcanc]
      have hA : failCount .A st.done = 0 := hf .A st.done le_rfl hlt
      have hB : failCount .B st.done = 0 := hf .B st.done le_rfl hlt
      simp only [Bool.false_eq_true, if_false, doCall, hA, hB,
        Nat.zero_min, Nat.zero_le, if_pos]
      rw [if_neg]
      · rw [ih]
        · have hn : k - st.done = (k - (st.done + 1)) + 1 := by omega
          rw [hn]
          simp only [cleanCalls, turnsTranscript, turnsNotepad]
          simp [List.append_assoc]
        · dsimp only; omega
        · dsimp only; omega
        · intro p t ht1 ht2
          dsimp only at ht1
          exact hf p t (by omega) ht2
        · intro j hj1 hj2 hm
          dsimp only at hj1
          exact hs j (by omega) hj2 hm
      · intro hcon
        exact absurd hcon.2 (by simp [hs st.done le_rfl hlt hcon.1])

end DualAiChat

namespace DualAiChat

/-- C7: when the cooperative cancellation flag is set after `k` completed
turns of a run whose natural length is longer, the run ends with the
distinct `cancelled` status (neither success nor failure), exactly the
calls of the first `k` exchange pairs were issued — no further call, no
synthesis — and the partial transcript and notepad of those `k` turns are
preserved.  Covers both termination modes (in AI-driven mode provided the
sentinel has not already ended the discussion before turn `k`). -/
theorem spec_C7 (cfg : DiscussionConfig) (env : ProviderEnv)
    (notepad0 : List Char) (k : Nat)
    (hk : k ≤ turnLimit cfg)
    (hnosent : ∀ j, j < k → cfg.mode = DiscussionMode.AiDriven →
      containsSub cfg.sentinel (env.out .B j) = false) :
    (runDiscussion cfg env (some k) (fun _ _ => 0) notepad0).status
        = RunStatus.cancelled
    ∧ (runDiscussion cfg env (some k) (fun _ _ => 0) notepad0).status
        ≠ RunStatus.completed
    ∧ (runDiscussion cfg env (some k) (fun _ _ => 0) notepad0).status
        ≠ RunStatus.failed
    ∧ (runDiscussion cfg env (some k) (fun _ _ => 0) notepad0).turnsCompleted = k
    ∧ (runDiscussion cfg env (some k) (fun _ _ => 0) notepad0).calls.map callShape
        = pairShapes 0 k
    ∧ (runDiscussion cfg env (some k) (fun _ _ => 0) notepad0).transcript
        = turnsTranscript env 0 k
    ∧ (runDiscussion cfg env (some k) (fun _ _ => 0) notepad0).notepad
        = turnsNotepad env 0 k notepad0
    ∧ (runDiscussion cfg env (some k) (fun _ _ => 0) notepad0).finalAnswer
        = none := by
  rw [runDiscussion]
  rw [loop_cancel cfg env _ k (turnLimit cfg) _
    (Nat.zero_le k) (by show k ≤ 0 + turnLimit cfg; omega)
    (fun _ _ _ _ => rfl)
    (fun j hj1 hj2 hm => hnosent j hj2 hm)]
  dsimp only
  simp [Nat.sub_zero, List.nil_append, cleanCalls_map_shape env k 0 [] notepad0]

/-- Witness for C7 — the spec's scenario: fixed mode with N = 3,
cancellation flag set after turn 1; no turn-2 call is issued,
`turnsCompleted = 1`, the status is `cancelled`, and turn 1's transcript
and notepad survive. -/
theorem spec_C7_witness :
    (runDiscussion
        { mode := .FixedTurns, fixedTurns := 3, safetyCap := 5
          sentinel := ("DONE").data, maxAutoRetries := 2 }
        { out := fun _ _ => ("hi").data
          mods := fun _ _ => [.replace_all ("noted").data]
          synthOut := ("ans").data }
        (some 1) (fun _ _ => 0) ("np").data).status = RunStatus.cancelled
    ∧ (runDiscussion
        { mode := .FixedTurns, fixedTurns := 3, safetyCap := 5
          sentinel := ("DONE").data, maxAutoRetries := 2 }
        { out := fun _ _ => ("hi").data
          mods := fun _ _ => [.replace_all ("noted").data]
          synthOut := ("ans").data }
        (some 1) (fun _ _ => 0) ("np").data).status ≠ RunStatus.completed
    ∧ (runDiscussion
        { mode := .FixedTurns, fixedTurns := 3, safetyCap := 5
          sentinel := ("DONE").data, maxAutoRetries := 2 }
        { out := fun _ _ => ("hi").data
          mods := fun _ _ => [.replace_all ("noted").data]
          synthOut := ("ans").data }
        (some 1) (fun _ _ => 0) ("np").data).status ≠ RunStatus.failed
    ∧ (runDiscussion
        { mode := .FixedTurns, fixedTurns := 3, safetyCap := 5
          sentinel := ("DONE").data, maxAutoRetries := 2 }
        { out := fun _ _ => ("hi").data
          mods := fun _ _ => [.replace_all ("noted").data]
          synthOut := ("ans").data }
        (some 1) (fun _ _ => 0) ("np").data).turnsCompleted = 1
    ∧ (runDiscussion
        { mode := .FixedTurns, fixedTurns := 3, safetyCap := 5
          sentinel := ("DONE").data, maxAutoRetries := 2 }
        { out := fun _ _ => ("hi").data
          mods := fun _ _ => [.replace_all ("noted").data]
          synthOut := ("ans").data }
        (some 1) (fun _ _ => 0) ("np").data).calls.map callShape
        = pairShapes 0 1
    ∧ (runDiscussion
        { mode := .FixedTurns, fixedTurns := 3, safetyCap := 5
          sentinel := ("DONE").data, maxAutoRetries := 2 }
        { out := fun _ _ => ("hi").data
          mods := fun _ _ => [.replace_all ("noted").data]
          synthOut := ("ans").data }
        (some 1) (fun _ _ => 0) ("np").data).transcript
        = turnsTranscript
            { out := fun _ _ => ("hi").data
              mods := fun _ _ => [.replace_all ("noted").data]
              synthOut := ("ans").data } 0 1
    ∧ (runDiscussion
        { mode := .FixedTurns, fixedTurns := 3, safetyCap := 5
          sentinel := ("DONE").data, maxAutoRetries := 2 }
        { out := fun _ _ => ("hi").data
          mods := fun _ _ => [.replace_all ("noted").data]
          synthOut := ("ans").data }
        (some 1) (fun _ _ => 0) ("np").data).notepad
        = turnsNotepad
            { out := fun _ _ => ("hi").data
              mods := fun _ _ => [.replace_all ("noted").data]
              synthOut := ("ans").data } 0 1 ("np").data
    ∧ (runDiscussion
        { mode := .FixedTurns, fixedTurns := 3, safetyCap := 5
          sentinel := ("DONE").data, maxAutoRetries := 2 }
        { out := fun _ _ => ("hi").data
          mods := fun _ _ => [.replace_all ("noted").data]
          synthOut := ("ans").data }
        (some 1) (fun _ _ => 0) ("np").data).finalAnswer = none :=
  spec_C7 _ _ _ 1 (by decide) (fun j hj hm => absurd hm (by decide))

end DualAiChat

namespace DualAiChat

theorem loop_ai_sent (cfg : DiscussionConfig) (env : ProviderEnv)
    (failCount : Persona → Nat → Nat)
    (hmode : cfg.mode = DiscussionMode.AiDriven) :
    ∀ (i fuel : Nat) (st : RunState),
      i < fuel →
      (∀ p t, st.done ≤ t → t ≤ st.done + i → failCount p t = 0) →
      (∀ j, st.done ≤ j → j < st.done + i →
        containsSub cfg.sentinel (env.out .B j) = false) →
      containsSub cfg.sentinel (env.out .B (st.done + i)) = true →
      discussionLoop cfg env none failCount fuel false st =
        { status := .completed
          turnsCompleted := st.done + i + 1
          calls := st.calls ++ cleanCalls env st.done (i + 1) st.transcript st.notepad
            ++ [{ persona := .A, turn := st.done + i + 1, isSynthesis := true
                  transcript := st.transcript ++ turnsTranscript env st.done (i + 1)
                  notepad := turnsNotepad env st.done (i + 1) st.notepad
                  attempts := 1 }]
          transcript := st.transcript ++ turnsTranscript env st.done (i + 1)
          notepad := turnsNotepad env st.done (i + 1) st.notepad
          finalAnswer := some env.synthOut
          failedStep := none } := by
  intro i
  induction i with
  | zero =>
    intro fuel st hif hf hs hsent
    match fuel, hif with
    | fuel' + 1, _ =>
      rw [discussionLoop]
      have hA : failCount .A st.done = 0 := hf .A st.done le_rfl (by omega)
      have hB : failCount .B st.done = 0 := hf .B st.done le_rfl (by omega)
      simp only [shouldCancel, Bool.false_eq_true, if_false, doCall, hA, hB,
        Nat.zero_min, Nat.zero_le, if_pos]
      rw [if_pos ⟨hmode, by simpa using hsent⟩]
      rw [doSynthesis]
      simp only [shouldCancel, Bool.false_eq_true, if_false]
      simp [cleanCalls, turnsTranscript, turnsNotepad, List.append_assoc]
  | succ i ih =>
    intro fuel st hif hf hs hsent
    match fuel, hif with
    | fuel' + 1, _ =>
      rw [discussionLoop]
      have hA : failCount .A st.done = 0 := hf .A st.done le_rfl (by omega)
      have hB : failCount .B st.done = 0 := hf .B st.done le_rfl (by omega)
      simp only [shouldCancel, Bool.false_eq_true, if_false, doCall, hA, hB,
        Nat.zero_min, Nat.zero_le, if_pos]
      rw [if_neg]
      · rw [ih fuel']
        · have h1 : st.done + 1 + i = st.done + (i + 1) := by omega
          simp only [cleanCalls, turnsTranscript, turnsNotepad, h1]
          simp [List.append_assoc]
        · omega
        · intro p t ht1 ht2
          dsimp only at ht1 ht2
          exact hf p t (by omega) (by omega)
        · intro j hj1 hj2
          dsimp only at hj1 hj2
          exact hs j (by omega) (by omega)
        · dsimp only
          have h1 : st.done + 1 + i = st.done + (i + 1) := by omega
          rw [h1]
          exact hsent
      · intro hcon
        exact absurd hcon.2 (by simp [hs st.done le_rfl (by omega)])

end DualAiChat

namespace DualAiChat

/-- C6: in AI-driven mode the stop sentinel is checked as an exact
substring match on persona B's raw output.  If it first appears at turn
k = i+1 < cap, the loop ends at that turn and exactly one synthesis call
follows; if it never appears (second run, `env2`), the loop runs exactly
to the hard safety cap and synthesis is forced. -/
theorem spec_C6 (cfg : DiscussionConfig) (env env2 : ProviderEnv)
    (np0 np2 : List Char) (i : Nat)
    (hmode : cfg.mode = DiscussionMode.AiDriven)
    (hi : i + 1 < cfg.safetyCap)
    (hsent : containsSub cfg.sentinel (env.out .B i) = true)
    (hbefore : ∀ j, j < i → containsSub cfg.sentinel (env.out .B j) = false)
    (hnever : ∀ j, j < cfg.safetyCap →
      containsSub cfg.sentinel (env2.out .B j) = false) :
    ((runDiscussion cfg env none (fun _ _ => 0) np0).turnsCompleted = i + 1
     ∧ (runDiscussion cfg env none (fun _ _ => 0) np0).status = RunStatus.completed
     ∧ (runDiscussion cfg env none (fun _ _ => 0) np0).calls.map callShape
         = pairShapes 0 (i + 1) ++ [(Persona.A, i + 1, true)]
     ∧ ((runDiscussion cfg env none (fun _ _ => 0) np0).calls.filter
         (fun c => c.isSynthesis)).length = 1)
    ∧ ((runDiscussion cfg env2 none (fun _ _ => 0) np2).turnsCompleted
         = cfg.safetyCap
     ∧ (runDiscussion cfg env2 none (fun _ _ => 0) np2).status
         = RunStatus.completed
     ∧ (runDiscussion cfg env2 none (fun _ _ => 0) np2).calls.map callShape
         = pairShapes 0 cfg.safetyCap ++ [(Persona.A, cfg.safetyCap, true)]
     ∧ ((runDiscussion cfg env2 none (fun _ _ => 0) np2).calls.filter
         (fun c => c.isSynthesis)).length = 1) := by
  have hlim : turnLimit cfg = cfg.safetyCap := by
    rw [turnLimit, hmode]
  constructor
  · rw [runDiscussion, hlim]
    rw [loop_ai_sent cfg env _ hmode i cfg.safetyCap _
      (by omega)
      (fun _ _ _ _ => rfl)
      (fun j hj1 hj2 => hbefore j (by simpa using hj2))
      (by simpa using hsent)]
    dsimp only
    simp only [Nat.zero_add, List.nil_append]
    refine ⟨trivial, trivial, ?_, ?_⟩
    · simp only [List.map_append, cleanCalls_map_shape, List.map_cons,
        List.map_nil, callShape]
    · simp only [List.filter_append]
      have h0 : (cleanCalls env 0 (i + 1) [] np0).filter
          (fun c => c.isSynthesis) = [] := by
        rw [List.filter_eq_nil_iff]
        intro c hc
        simp [cleanCalls_no_synth env _ _ _ _ c hc]
      simp [h0]
  · rw [runDiscussion, hlim]
    rw [loop_clean cfg env2 _ cfg.safetyCap _
      (fun _ _ _ _ => rfl)
      (fun j hj1 hj2 _ => hnever j (by simpa using hj2))]
    dsimp only
    simp only [Nat.zero_add, List.nil_append]
    refine ⟨trivial, trivial, ?_, ?_⟩
    · simp only [List.map_append, cleanCalls_map_shape, List.map_cons,
        List.map_nil, callShape]
    · simp only [List.filter_append]
      have h0 : (cleanCalls env2 0 cfg.safetyCap [] np2).filter
          (fun c => c.isSynthesis) = [] := by
        rw [List.filter_eq_nil_iff]
        intro c hc
        simp [cleanCalls_no_synth env2 _ _ _ _ c hc]
      simp [h0]

/-- Witness for C6: cap 3, sentinel "DONE" present in persona B's very
first output in the first run and never present in the second run. -/
theorem spec_C6_witness :
    ((runDiscussion
        { mode := .AiDriven, fixedTurns := 2, safetyCap := 3
          sentinel := ("DONE").data, maxAutoRetries := 2 }
        { out := fun p _ => if p = .B then ("ok DONE").data else ("go").data
          mods := fun _ _ => [], synthOut := ("ans").data }
        none (fun _ _ => 0) ("np").data).turnsCompleted = 0 + 1
     ∧ (runDiscussion
        { mode := .AiDriven, fixedTurns := 2, safetyCap := 3
          sentinel := ("DONE").data, maxAutoRetries := 2 }
        { out := fun p _ => if p = .B then ("ok DONE").data else ("go").data
          mods := fun _ _ => [], synthOut := ("ans").data }
        none (fun _ _ => 0) ("np").data).status = RunStatus.completed
     ∧ (runDiscussion
        { mode := .AiDriven, fixedTurns := 2, safetyCap := 3
          sentinel := ("DONE").data, maxAutoRetries := 2 }
        { out := fun p _ => if p = .B then ("ok DONE").data else ("go").data
          mods := fun _ _ => [], synthOut := ("ans").data }
        none (fun _ _ => 0) ("np").data).calls.map callShape
         = pairShapes 0 (0 + 1) ++ [(Persona.A, 0 + 1, true)]
     ∧ ((runDiscussion
        { mode := .AiDriven, fixedTurns := 2, safetyCap := 3
          sentinel := ("DONE").data, maxAutoRetries := 2 }
        { out := fun p _ => if p = .B then ("ok DONE").data else ("go").data
          mods := fun _ _ => [], synthOut := ("ans").data }
        none (fun _ _ => 0) ("np").data).calls.filter
         (fun c => c.isSynthesis)).length = 1)
    ∧ ((runDiscussion
        { mode := .AiDriven, fixedTurns := 2, safetyCap := 3
          sentinel := ("DONE").data, maxAutoRetries := 2 }
        { out := fun _ _ => ("quiet").data
          mods := fun _ _ => [], synthOut := ("ans2").data }
        none (fun _ _ => 0) ("np2").data).turnsCompleted = 3
     ∧ (runDiscussion
        { mode := .AiDriven, fixedTurns := 2, safetyCap := 3
          sentinel := ("DONE").data, maxAutoRetries := 2 }
        { out := fun _ _ => ("quiet").data
          mods := fun _ _ => [], synthOut := ("ans2").data }
        none (fun _ _ => 0) ("np2").data).status = RunStatus.completed
     ∧ (runDiscussion
        { mode := .AiDriven, fixedTurns := 2, safetyCap := 3
          sentinel := ("DONE").data, maxAutoRetries := 2 }
        { out := fun _ _ => ("quiet").data
          mods := fun _ _ => [], synthOut := ("ans2").data }
        none (fun _ _ => 0) ("np2").data).calls.map callShape
         = pairShapes 0 3 ++ [(Persona.A, 3, true)]
     ∧ ((runDiscussion
        { mode := .AiDriven, fixedTurns := 2, safetyCap := 3
          sentinel := ("DONE").data, maxAutoRetries := 2 }
        { out := fun _ _ => ("quiet").data
          mods := fun _ _ => [], synthOut := ("ans2").data }
        none (fun _ _ => 0) ("np2").data).calls.filter
         (fun c => c.isSynthesis)).length = 1) :=
  spec_C6 _ _ _ _ _ 0 rfl (by decide) (by decide)
    (fun j hj => absurd hj (by omega))
    (fun j _ => by
      show containsSub ("DONE").data ("quiet").data = false
      decide)

end DualAiChat

namespace DualAiChat

theorem turnsTranscript_split (env : ProviderEnv) :
    ∀ (a b d : Nat),
      turnsTranscript env d (a + b)
        = turnsTranscript env d a ++ turnsTranscript env (d + a) b := by
  intro a
  induction a with
  | zero => intro b d; simp [turnsTranscript]
  | succ a ih =>
    intro b d
    have h1 : a + 1 + b = (a + b) + 1 := by omega
    rw [h1]
    simp only [turnsTranscript, List.cons_append]
    rw [ih b (d + 1)]
    have h2 : d + 1 + a = d + (a + 1) := by omega
    rw [h2]

theorem turnsNotepad_split (env : ProviderEnv) :
    ∀ (a b d : Nat) (np : List Char),
      turnsNotepad env d (a + b) np
        = turnsNotepad env (d + a) b (turnsNotepad env d a np) := by
  intro a
  induction a with
  | zero => intro b d np; simp [turnsNotepad]
  | succ a ih =>
    intro b d np
    have h1 : a + 1 + b = (a + b) + 1 := by omega
    rw [h1]
    simp only [turnsNotepad]
    rw [ih b (d + 1)]
    have h2 : d + 1 + a = d + (a + 1) := by omega
    rw [h2]

theorem cleanCalls_split (env : ProviderEnv) :
    ∀ (a b d : Nat) (tr : List (List Char)) (np : List Char),
      cleanCalls env d (a + b) tr np
        = cleanCalls env d a tr np
          ++ cleanCalls env (d + a) b (tr ++ turnsTranscript env d a)
              (turnsNotepad env d a np) := by
  intro a
  induction a with
  | zero => intro b d tr np; simp [cleanCalls, turnsTranscript, turnsNotepad]
  | succ a ih =>
    intro b d tr np
    have h1 : a + 1 + b = (a + b) + 1 := by omega
    rw [h1]
    simp only [cleanCalls, turnsTranscript, turnsNotepad, List.cons_append]
    rw [ih b (d + 1)]
    have h2 : d + 1 + a = d + (a + 1) := by omega
    rw [h2]
    simp [List.append_assoc]

theorem cleanCalls_length (env : ProviderEnv) :
    ∀ (n d : Nat) (tr : List (List Char)) (np : List Char),
      (cleanCalls env d n tr np).length = 2 * n := by
  intro n
  induction n with
  | zero => intro d tr np; simp [cleanCalls]
  | succ n ih =>
    intro d tr np
    simp only [cleanCalls, List.length_cons]
    rw [ih]
    omega

end DualAiChat

namespace DualAiChat

theorem loop_fail_A (cfg : DiscussionConfig) (env : ProviderEnv)
    (failCount : Persona → Nat → Nat) (k : Nat)
    (hfail : cfg.maxAutoRetries < failCount .A k) :
    ∀ (fuel : Nat) (st : RunState),
      st.done ≤ k → k < st.done + fuel →
      (∀ p t, st.done ≤ t → t < k → failCount p t = 0) →
      (∀ j, st.done ≤ j → j < k → cfg.mode = DiscussionMode.AiDriven →
        containsSub cfg.sentinel (env.out .B j) = false) →
      discussionLoop cfg env none failCount fuel false st =
        { status := .failed
          turnsCompleted := k
          calls := st.calls
            ++ cleanCalls env st.done (k - st.done) st.transcript st.notepad
            ++ [{ persona := .A, turn := k, isSynthesis := false
                  transcript := st.transcript ++ turnsTranscript env st.done (k - st.done)
                  notepad := turnsNotepad env st.done (k - st.done) st.notepad
                  attempts := cfg.maxAutoRetries + 1 }]
          transcript := st.transcript ++ turnsTranscript env st.done (k - st.done)
          notepad := turnsNotepad env st.done (k - st.done) st.notepad
          finalAnswer := none
          failedStep := some
            { persona := .A, turnIndex := k
              transcript := st.transcript ++ turnsTranscript env st.done (k - st.done)
              notepad := turnsNotepad env st.done (k - st.done) st.notepad } } := by
  intro fuel
  induction fuel with
  | zero =>
    intro st h1 h2 hf hs
    omega
  | succ fuel ih =>
    intro st h1 h2 hf hs
    rw [discussionLoop]
    by_cases hdone : k = st.done
    · subst hdone
      have hmin : min (failCount .A st.done) cfg.maxAutoRetries = cfg.maxAutoRetries :=
        Nat.min_eq_right hfail.le
      have hnot : ¬ failCount .A st.done ≤ cfg.maxAutoRetries := by omega
      simp only [shouldCancel, Bool.false_eq_true, if_false, doCall,
        hmin, hnot, if_false, mkFailed]
      simp [cleanCalls, turnsTranscript, turnsNotepad]
    · have hlt : st.done < k := by omega
      have hA : failCount .A st.done = 0 := hf .A st.done le_rfl hlt
      have hB : failCount .B st.done = 0 := hf .B st.done le_rfl hlt
      simp only [shouldCancel, Bool.false_eq_true, if_false, doCall, hA, hB,
        Nat.zero_min, Nat.zero_le, if_pos]
      rw [if_neg]
      · rw [ih]
        · have hn : k - st.done = (k - (st.done + 1)) + 1 := by omega
          rw [hn]
          simp only [cleanCalls, turnsTranscript, turnsNotepad]
          simp [List.append_assoc]
        · dsimp only; omega
        · dsimp only; omega
        · intro p t ht1 ht2
          dsimp only at ht1
          exact hf p t (by omega) ht2
        · intro j hj1 hj2 hm
          dsimp only at hj1
          exact hs j (by omega) hj2 hm
      · intro hcon
        exact absurd hcon.2 (by simp [hs st.done le_rfl hlt hcon.1])

theorem loop_fail_B (cfg : DiscussionConfig) (env : ProviderEnv)
    (failCount : Persona → Nat → Nat) (k : Nat)
    (hfail : cfg.maxAutoRetries < failCount .B k)
    (hAk : failCount .A k = 0) :
    ∀ (fuel : Nat) (st : RunState),
      st.done ≤ k → k < st.done + fuel →
      (∀ p t, st.done ≤ t → t < k → failCount p t = 0) →
      (∀ j, st.done ≤ j → j < k → cfg.mode = DiscussionMode.AiDriven →
        containsSub cfg.sentinel (env.out .B j) = false) →
      discussionLoop cfg env none failCount fuel false st =
        { status := .failed
          turnsCompleted := k
          calls := st.calls
            ++ cleanCalls env st.done (k - st.done) st.transcript st.notepad
            ++ [{ persona := .A, turn := k, isSynthesis := false
                  transcript := st.transcript ++ turnsTranscript env st.done (k - st.done)
                  notepad := turnsNotepad env st.done (k - st.done) st.notepad
                  attempts := 1 },
                { persona := .B, turn := k, isSynthesis := false
                  transcript := (st.transcript ++ turnsTranscript env st.done (k - st.done))
                    ++ [env.out .A k]
                  notepad := (applyNotepadModifications
                    (turnsNotepad env st.done (k - st.done) st.notepad)
                    (env.mods .A k)).1
                  attempts := cfg.maxAutoRetries + 1 }]
          transcript := (st.transcript ++ turnsTranscript env st.done (k - st.done))
            ++ [env.out .A k]
          notepad := (applyNotepadModifications
            (turnsNotepad env st.done (k - st.done) st.notepad)
            (env.mods .A k)).1
          finalAnswer := none
          failedStep := some
            { persona := .B, turnIndex := k
              transcript := (st.transcript ++ turnsTranscript env st.done (k - st.done))
                ++ [env.out .A k]
              notepad := (applyNotepadModifications
                (turnsNotepad env st.done (k - st.done) st.notepad)
                (env.mods .A k)).1 } } := by
  intro fuel
  induction fuel with
  | zero =>
    intro st h1 h2 hf hs
    omega
  | succ fuel ih =>
    intro st h1 h2 hf hs
    rw [discussionLoop]
    by_cases hdone : k = st.done
    · subst hdone
      have hmin : min (failCount .B st.done) cfg.maxAutoRetries = cfg.maxAutoRetries :=
        Nat.min_eq_right hfail.le
      have hnot : ¬ failCount .B st.done ≤ cfg.maxAutoRetries := by omega
      simp only [shouldCancel, Bool.false_eq_true, if_false, doCall, hAk,
        Nat.zero_min, Nat.zero_le, if_pos, hmin, hnot, if_false, mkFailed]
      simp [cleanCalls, turnsTranscript, turnsNotepad, List.append_assoc]
    · have hlt : st.done < k := by omega
      have hA : failCount .A st.done = 0 := hf .A st.done le_rfl hlt
      have hB : failCount .B st.done = 0 := hf .B st.done le_rfl hlt
      simp only [shouldCancel, Bool.false_eq_true, if_false, doCall, hA, hB,
        Nat.zero_min, Nat.zero_le, if_pos]
      rw [if_neg]
      · rw [ih]
        · have hn : k - st.done = (k - (st.done + 1)) + 1 := by omega
          rw [hn]
          simp only [cleanCalls, turnsTranscript, turnsNotepad]
          simp [List.append_assoc]
        · dsimp only; omega
        · dsimp only; omega
        · intro p t ht1 ht2
          dsimp only at ht1
          exact hf p t (by omega) ht2
        · intro j hj1 hj2 hm
          dsimp only at hj1
          exact hs j (by omega) hj2 hm
      · intro hcon
        exact absurd hcon.2 (by simp [hs st.done le_rfl hlt hcon.1])

end DualAiChat

namespace DualAiChat

theorem loop_clean_atB (cfg : DiscussionConfig) (env : ProviderEnv)
    (failCount : Persona → Nat → Nat) (fuel : Nat) (st : RunState)
    (hfB : failCount .B st.done = 0)
    (hf : ∀ p t, st.done + 1 ≤ t → t < st.done + 1 + fuel → failCount p t = 0)
    (hs : ∀ j, st.done ≤ j → j < st.done + 1 + fuel →
      cfg.mode = DiscussionMode.AiDriven →
      containsSub cfg.sentinel (env.out .B j) = false) :
    discussionLoop cfg env none failCount (fuel + 1) true st =
      { status := .completed
        turnsCompleted := st.done + 1 + fuel
        calls := st.calls
          ++ [{ persona := .B, turn := st.done, isSynthesis := false
                transcript := st.transcript, notepad := st.notepad, attempts := 1 }]
          ++ cleanCalls env (st.done + 1) fuel
              (st.transcript ++ [env.out .B st.done])
              ((applyNotepadModifications st.notepad (env.mods .B st.done)).1)
          ++ [{ persona := .A, turn := st.done + 1 + fuel, isSynthesis := true
                transcript := (st.transcript ++ [env.out .B st.done])
                  ++ turnsTranscript env (st.done + 1) fuel
                notepad := turnsNotepad env (st.done + 1) fuel
                  ((applyNotepadModifications st.notepad (env.mods .B st.done)).1)
                attempts := 1 }]
        transcript := (st.transcript ++ [env.out .B st.done])
          ++ turnsTranscript env (st.done + 1) fuel
        notepad := turnsNotepad env (st.done + 1) fuel
          ((applyNotepadModifications st.notepad (env.mods .B st.done)).1)
        finalAnswer := some env.synthOut
        failedStep := none } := by
  rw [discussionLoop]
  simp only [shouldCancel, Bool.false_eq_true, if_false, if_true, doCall, hfB,
    Nat.zero_min, Nat.zero_le, if_pos]
  rw [if_neg]
  · rw [loop_clean cfg env failCount fuel _
      (by
        intro p t ht1 ht2
        dsimp only at ht1 ht2
        exact hf p t (by omega) (by omega))
      (by
        intro j hj1 hj2 hm
        dsimp only at hj1 hj2
        exact hs j (by omega) (by omega) hm)]
  · intro hcon
    exact absurd hcon.2 (by simp [hs st.done le_rfl (by omega) hcon.1])

end DualAiChat

namespace DualAiChat

theorem spec_C8_A (cfg : DiscussionConfig) (env : ProviderEnv)
    (notepad0 : List Char) (failCount : Persona → Nat → Nat) (k : Nat)
    (hk : k < turnLimit cfg)
    (hfail : cfg.maxAutoRetries < failCount .A k)
    (hclean : ∀ p t, ¬(p = Persona.A ∧ t = k) → failCount p t = 0)
    (hnosent : ∀ j, j < turnLimit cfg → cfg.mode = DiscussionMode.AiDriven →
      containsSub cfg.sentinel (env.out .B j) = false) :
    (runDiscussion cfg env none failCount notepad0).failedStep
      = some { persona := .A, turnIndex := k
               transcript := turnsTranscript env 0 k
               notepad := turnsNotepad env 0 k notepad0 }
    ∧ (runDiscussion cfg env none failCount notepad0).status = .failed
    ∧ (runDiscussion cfg env none failCount notepad0).turnsCompleted = k
    ∧ (runDiscussion cfg env none failCount notepad0).calls
      = (runDiscussion cfg env none (fun _ _ => 0) notepad0).calls.take (2 * k)
        ++ [{ persona := .A, turn := k, isSynthesis := false
              transcript := turnsTranscript env 0 k
              notepad := turnsNotepad env 0 k notepad0
              attempts := cfg.maxAutoRetries + 1 }]
    ∧ (retryFailedStep cfg env none (fun _ _ => 0)
        { persona := .A, turnIndex := k
          transcript := turnsTranscript env 0 k
          notepad := turnsNotepad env 0 k notepad0 }).status = .completed
    ∧ (retryFailedStep cfg env none (fun _ _ => 0)
        { persona := .A, turnIndex := k
          transcript := turnsTranscript env 0 k
          notepad := turnsNotepad env 0 k notepad0 }).transcript
      = (runDiscussion cfg env none (fun _ _ => 0) notepad0).transcript
    ∧ (retryFailedStep cfg env none (fun _ _ => 0)
        { persona := .A, turnIndex := k
          transcript := turnsTranscript env 0 k
          notepad := turnsNotepad env 0 k notepad0 }).notepad
      = (runDiscussion cfg env none (fun _ _ => 0) notepad0).notepad
    ∧ (retryFailedStep cfg env none (fun _ _ => 0)
        { persona := .A, turnIndex := k
          transcript := turnsTranscript env 0 k
          notepad := turnsNotepad env 0 k notepad0 }).turnsCompleted
      = (runDiscussion cfg env none (fun _ _ => 0) notepad0).turnsCompleted
    ∧ (retryFailedStep cfg env none (fun _ _ => 0)
        { persona := .A, turnIndex := k
          transcript := turnsTranscript env 0 k
          notepad := turnsNotepad env 0 k notepad0 }).calls
      = (runDiscussion cfg env none (fun _ _ => 0) notepad0).calls.drop (2 * k) := by
  have hcleanrun := loop_clean cfg env (fun _ _ => 0) (turnLimit cfg)
    { done := 0, calls := [], transcript := [], notepad := notepad0 }
    (fun _ _ _ _ => rfl)
    (fun j hj1 hj2 hm => hnosent j (by
      first
      | (dsimp only at hj2; omega)
      | omega) hm)
  have hfailrun := loop_fail_A cfg env failCount k hfail (turnLimit cfg)
    { done := 0, calls := [], transcript := [], notepad := notepad0 }
    (Nat.zero_le k) (by show k < 0 + turnLimit cfg; omega)
    (fun p t _ htk => hclean p t (fun hcon => absurd hcon.2 (by omega)))
    (fun j _ hj hm => hnosent j (by
      first
      | (dsimp only at hj; omega)
      | omega) hm)
  have hretryrun := loop_clean cfg env (fun _ _ => 0) (turnLimit cfg - k)
    { done := k, calls := []
      transcript := turnsTranscript env 0 k
      notepad := turnsNotepad env 0 k notepad0 }
    (fun _ _ _ _ => rfl)
    (fun j hj1 hj2 hm => hnosent j (by
      first
      | (dsimp only at hj1 hj2; omega)
      | omega) hm)
  have hsplitC : cleanCalls env 0 (turnLimit cfg) [] notepad0
      = cleanCalls env 0 k [] notepad0
        ++ cleanCalls env k (turnLimit cfg - k)
            (turnsTranscript env 0 k) (turnsNotepad env 0 k notepad0) := by
    conv_lhs => rw [show turnLimit cfg = k + (turnLimit cfg - k) from by omega]
    rw [cleanCalls_split]
    simp
  have hsplitT : turnsTranscript env 0 (turnLimit cfg)
      = turnsTranscript env 0 k ++ turnsTranscript env k (turnLimit cfg - k) := by
    conv_lhs => rw [show turnLimit cfg = k + (turnLimit cfg - k) from by omega]
    rw [turnsTranscript_split]
    simp
  have hsplitN : turnsNotepad env 0 (turnLimit cfg) notepad0
      = turnsNotepad env k (turnLimit cfg - k) (turnsNotepad env 0 k notepad0) := by
    conv_lhs => rw [show turnLimit cfg = k + (turnLimit cfg - k) from by omega]
    rw [turnsNotepad_split]
    simp
  have hlenC : (cleanCalls env 0 k [] notepad0).length = 2 * k :=
    cleanCalls_length env k 0 [] notepad0
  rw [runDiscussion, runDiscussion, retryFailedStep]
  rw [hfailrun, hcleanrun]
  dsimp only
  rw [show decide (Persona.A = Persona.B) = false from rfl]
  rw [hretryrun]
  dsimp only
  simp only [List.nil_append, Nat.zero_add, Nat.sub_zero]
  refine ⟨trivial, trivial, trivial, ?_, trivial, ?_, ?_, by omega, ?_⟩
  · rw [hsplitC, List.append_assoc]
    rw [List.take_left' hlenC]
  · rw [hsplitT]
  · rw [hsplitN]
  · rw [hsplitC, List.append_assoc]
    rw [List.drop_left' hlenC]
    congr 1
    have h1 : k + (turnLimit cfg - k) = turnLimit cfg := by omega
    rw [h1, hsplitT, hsplitN]

end DualAiChat

namespace DualAiChat

theorem spec_C8_B (cfg : DiscussionConfig) (env : ProviderEnv)
    (notepad0 : List Char) (failCount : Persona → Nat → Nat) (k : Nat)
    (hk : k < turnLimit cfg)
    (hfail : cfg.maxAutoRetries < failCount .B k)
    (hclean : ∀ p t, ¬(p = Persona.B ∧ t = k) → failCount p t = 0)
    (hnosent : ∀ j, j < turnLimit cfg → cfg.mode = DiscussionMode.AiDriven →
      containsSub cfg.sentinel (env.out .B j) = false) :
    (runDiscussion cfg env none failCount notepad0).failedStep
      = some { persona := .B, turnIndex := k
               transcript := turnsTranscript env 0 k ++ [env.out .A k]
               notepad := (applyNotepadModifications
                 (turnsNotepad env 0 k notepad0) (env.mods .A k)).1 }
    ∧ (runDiscussion cfg env none failCount notepad0).status = .failed
    ∧ (runDiscussion cfg env none failCount notepad0).turnsCompleted = k
    ∧ (runDiscussion cfg env none failCount notepad0).calls
      = (runDiscussion cfg env none (fun _ _ => 0) notepad0).calls.take (2 * k + 1)
        ++ [{ persona := .B, turn := k, isSynthesis := false
              transcript := turnsTranscript env 0 k ++ [env.out .A k]
              notepad := (applyNotepadModifications
                (turnsNotepad env 0 k notepad0) (env.mods .A k)).1
              attempts := cfg.maxAutoRetries + 1 }]
    ∧ (retryFailedStep cfg env none (fun _ _ => 0)
        { persona := .B, turnIndex := k
          transcript := turnsTranscript env 0 k ++ [env.out .A k]
          notepad := (applyNotepadModifications
            (turnsNotepad env 0 k notepad0) (env.mods .A k)).1 }).status
      = .completed
    ∧ (retryFailedStep cfg env none (fun _ _ => 0)
        { persona := .B, turnIndex := k
          transcript := turnsTranscript env 0 k ++ [env.out .A k]
          notepad := (applyNotepadModifications
            (turnsNotepad env 0 k notepad0) (env.mods .A k)).1 }).transcript
      = (runDiscussion cfg env none (fun _ _ => 0) notepad0).transcript
    ∧ (retryFailedStep cfg env none (fun _ _ => 0)
        { persona := .B, turnIndex := k
          transcript := turnsTranscript env 0 k ++ [env.out .A k]
          notepad := (applyNotepadModifications
            (turnsNotepad env 0 k notepad0) (env.mods .A k)).1 }).notepad
      = (runDiscussion cfg env none (fun _ _ => 0) notepad0).notepad
    ∧ (retryFailedStep cfg env none (fun _ _ => 0)
        { persona := .B, turnIndex := k
          transcript := turnsTranscript env 0 k ++ [env.out .A k]
          notepad := (applyNotepadModifications
            (turnsNotepad env 0 k notepad0) (env.mods .A k)).1 }).turnsCompleted
      = (runDiscussion cfg env none (fun _ _ => 0) notepad0).turnsCompleted
    ∧ (retryFailedStep cfg env none (fun _ _ => 0)
        { persona := .B, turnIndex := k
          transcript := turnsTranscript env 0 k ++ [env.out .A k]
          notepad := (applyNotepadModifications
            (turnsNotepad env 0 k notepad0) (env.mods .A k)).1 }).calls
      = (runDiscussion cfg env none (fun _ _ => 0) notepad0).calls.drop (2 * k + 1) := by
  have hcleanrun := loop_clean cfg env (fun _ _ => 0) (turnLimit cfg)
    { done := 0, calls := [], transcript := [], notepad := notepad0 }
    (fun _ _ _ _ => rfl)
    (fun j hj1 hj2 hm => hnosent j (by
      first
      | (dsimp only at hj2; omega)
      | omega) hm)
  have hAk : failCount .A k = 0 :=
    hclean .A k (fun hcon => by cases hcon.1)
  have hfailrun := loop_fail_B cfg env failCount k hfail hAk (turnLimit cfg)
    { done := 0, calls := [], transcript := [], notepad := notepad0 }
    (Nat.zero_le k) (by show k < 0 + turnLimit cfg; omega)
    (fun p t _ htk => hclean p t (fun hcon => absurd hcon.2 (by omega)))
    (fun j _ hj hm => hnosent j (by
      first
      | (dsimp only at hj; omega)
      | omega) hm)
  have hfuel : turnLimit cfg - k = (turnLimit cfg - k - 1) + 1 := by omega
  have hretryrun := loop_clean_atB cfg env (fun _ _ => 0) (turnLimit cfg - k - 1)
    { done := k, calls := []
      transcript := turnsTranscript env 0 k ++ [env.out .A k]
      notepad := (applyNotepadModifications
        (turnsNotepad env 0 k notepad0) (env.mods .A k)).1 }
    rfl
    (fun _ _ _ _ => rfl)
    (fun j hj1 hj2 hm => hnosent j (by
      first
      | (dsimp only at hj1 hj2; omega)
      | omega) hm)
  have hsplitC : cleanCalls env 0 (turnLimit cfg) [] notepad0
      = cleanCalls env 0 k [] notepad0
        ++ cleanCalls env k (turnLimit cfg - k)
            (turnsTranscript env 0 k) (turnsNotepad env 0 k notepad0) := by
    conv_lhs => rw [show turnLimit cfg = k + (turnLimit cfg - k) from by omega]
    rw [cleanCalls_split]
    simp
  have hsplitT : turnsTranscript env 0 (turnLimit cfg)
      = turnsTranscript env 0 k ++ turnsTranscript env k (turnLimit cfg - k) := by
    conv_lhs => rw [show turnLimit cfg = k + (turnLimit cfg - k) from by omega]
    rw [turnsTranscript_split]
    simp
  have hsplitN : turnsNotepad env 0 (turnLimit cfg) notepad0
      = turnsNotepad env k (turnLimit cfg - k) (turnsNotepad env 0 k notepad0) := by
    conv_lhs => rw [show turnLimit cfg = k + (turnLimit cfg - k) from by omega]
    rw [turnsNotepad_split]
    simp
  have hlenC : (cleanCalls env 0 k [] notepad0).length = 2 * k :=
    cleanCalls_length env k 0 [] notepad0
  rw [runDiscussion, runDiscussion, retryFailedStep]
  rw [hfailrun, hcleanrun]
  dsimp only
  rw [show decide (Persona.B = Persona.B) = true from rfl]
  rw [hfuel, hretryrun]
  dsimp only
  simp only [List.nil_append, Nat.zero_add, Nat.sub_zero]
  have hunfold : cleanCalls env k (turnLimit cfg - k)
      (turnsTranscript env 0 k) (turnsNotepad env 0 k notepad0)
      = { persona := .A, turn := k, isSynthesis := false
          transcript := turnsTranscript env 0 k
          notepad := turnsNotepad env 0 k notepad0, attempts := 1 }
        :: { persona := .B, turn := k, isSynthesis := false
             transcript := turnsTranscript env 0 k ++ [env.out .A k]
             notepad := (applyNotepadModifications
               (turnsNotepad env 0 k notepad0) (env.mods .A k)).1, attempts := 1 }
        :: cleanCalls env (k + 1) (turnLimit cfg - k - 1)
            (turnsTranscript env 0 k ++ [env.out .A k] ++ [env.out .B k])
            ((applyNotepadModifications
              ((applyNotepadModifications
                (turnsNotepad env 0 k notepad0) (env.mods .A k)).1)
              (env.mods .B k)).1) := by
    rw [hfuel]
    simp only [cleanCalls, Nat.add_sub_cancel]
  have hTunfold : turnsTranscript env k (turnLimit cfg - k)
      = env.out .A k :: env.out .B k :: turnsTranscript env (k + 1) (turnLimit cfg - k - 1) := by
    rw [hfuel]
    simp only [turnsTranscript, Nat.add_sub_cancel]
  have hNunfold : turnsNotepad env k (turnLimit cfg - k) (turnsNotepad env 0 k notepad0)
      = turnsNotepad env (k + 1) (turnLimit cfg - k - 1)
          ((applyNotepadModifications
            ((applyNotepadModifications
              (turnsNotepad env 0 k notepad0) (env.mods .A k)).1)
            (env.mods .B k)).1) := by
    rw [hfuel]
    simp only [turnsNotepad, Nat.add_sub_cancel]
  refine ⟨trivial, trivial, trivial, ?_, trivial, ?_, ?_, ?_, ?_⟩
  · rw [hsplitC, hunfold]
    simp only [List.append_assoc, List.cons_append]
    rw [show 2 * k + 1 = (cleanCalls env 0 k [] notepad0).length + 1 from by omega]
    rw [List.take_append 1]
    simp [List.append_assoc]
  · rw [hsplitT, hTunfold]
    simp [List.append_assoc]
  · rw [hsplitN, hNunfold]
  · omega
  · rw [hsplitC, hunfold]
    simp only [List.append_assoc, List.cons_append]
    rw [show 2 * k + 1 = (cleanCalls env 0 k [] notepad0).length + 1 from by omega]
    rw [List.drop_append 1]
    simp only [List.drop_succ_cons, List.drop_zero]
    have h1 : k + 1 + (turnLimit cfg - k - 1) = turnLimit cfg := by omega
    rw [h1, hsplitT, hTunfold, hsplitN, hNunfold]
    simp [List.append_assoc]

end DualAiChat

namespace DualAiChat

/-- C8: when the provider call of persona `p0` at turn `k` keeps failing,
the automatic silent retries are capped (`maxAutoRetries + 1` attempts are
recorded on the surfaced call) and the orchestrator records a resumable
payload carrying the turn index, the mid-turn persona, the transcript so
far and the pre-failure notepad snapshot; a subsequent manual retry with a
healthy provider issues, as its first call, a call with exactly the
prompt context the unfailed run would have used (the retried run's calls
are exactly the clean run's calls from position m onward, context
included), and the final transcript and notepad equal those of a run in
which the failure never happened — no entry duplicated or dropped. -/
theorem spec_C8 (cfg : DiscussionConfig) (env : ProviderEnv)
    (notepad0 : List Char) (failCount : Persona → Nat → Nat)
    (p0 : Persona) (k : Nat)
    (hk : k < turnLimit cfg)
    (hfail : cfg.maxAutoRetries < failCount p0 k)
    (hclean : ∀ p t, ¬(p = p0 ∧ t = k) → failCount p t = 0)
    (hnosent : ∀ j, j < turnLimit cfg → cfg.mode = DiscussionMode.AiDriven →
      containsSub cfg.sentinel (env.out .B j) = false) :
    ∃ pay : FailedStep,
      (runDiscussion cfg env none failCount notepad0).failedStep = some pay
      ∧ (runDiscussion cfg env none failCount notepad0).status = RunStatus.failed
      ∧ (runDiscussion cfg env none failCount notepad0).turnsCompleted = k
      ∧ pay.persona = p0
      ∧ pay.turnIndex = k
      ∧ (runDiscussion cfg env none failCount notepad0).calls
          = (runDiscussion cfg env none (fun _ _ => 0) notepad0).calls.take
              (2 * k + if p0 = Persona.B then 1 else 0)
            ++ [{ persona := p0, turn := k, isSynthesis := false
                  transcript := pay.transcript, notepad := pay.notepad
                  attempts := cfg.maxAutoRetries + 1 }]
      ∧ (retryFailedStep cfg env none (fun _ _ => 0) pay).status
          = RunStatus.completed
      ∧ (retryFailedStep cfg env none (fun _ _ => 0) pay).transcript
          = (runDiscussion cfg env none (fun _ _ => 0) notepad0).transcript
      ∧ (retryFailedStep cfg env none (fun _ _ => 0) pay).notepad
          = (runDiscussion cfg env none (fun _ _ => 0) notepad0).notepad
      ∧ (retryFailedStep cfg env none (fun _ _ => 0) pay).turnsCompleted
          = (runDiscussion cfg env none (fun _ _ => 0) notepad0).turnsCompleted
      ∧ (retryFailedStep cfg env none (fun _ _ => 0) pay).calls
          = (runDiscussion cfg env none (fun _ _ => 0) notepad0).calls.drop
              (2 * k + if p0 = Persona.B then 1 else 0) := by
  cases p0 with
  | A =>
    obtain ⟨h1, h2, h3, h4, h5, h6, h7, h8, h9⟩ :=
      spec_C8_A cfg env notepad0 failCount k hk hfail hclean hnosent
    refine ⟨_, h1, h2, h3, rfl, rfl, ?_, h5, h6, h7, h8, ?_⟩
    · simpa using h4
    · simpa using h9
  | B =>
    obtain ⟨h1, h2, h3, h4, h5, h6, h7, h8, h9⟩ :=
      spec_C8_B cfg env notepad0 failCount k hk hfail hclean hnosent
    refine ⟨_, h1, h2, h3, rfl, rfl, ?_, h5, h6, h7, h8, ?_⟩
    · simpa using h4
    · simpa using h9

/-- Witness for C8: fixed mode with N = 1, persona A's call at turn 0
failing more times than the retry cap of 2. -/
theorem spec_C8_witness :
    ∃ pay : FailedStep,
      (runDiscussion
          { mode := .FixedTurns, fixedTurns := 1, safetyCap := 5
            sentinel := ("DONE").data, maxAutoRetries := 2 }
          { out := fun _ _ => ("hi").data, mods := fun _ _ => []
            synthOut := ("ans").data }
          none (fun p t => if p = Persona.A ∧ t = 0 then 3 else 0)
          ("np").data).failedStep = some pay
      ∧ (runDiscussion
          { mode := .FixedTurns, fixedTurns := 1, safetyCap := 5
            sentinel := ("DONE").data, maxAutoRetries := 2 }
          { out := fun _ _ => ("hi").data, mods := fun _ _ => []
            synthOut := ("ans").data }
          none (fun p t => if p = Persona.A ∧ t = 0 then 3 else 0)
          ("np").data).status = RunStatus.failed
      ∧ (runDiscussion
          { mode := .FixedTurns, fixedTurns := 1, safetyCap := 5
            sentinel := ("DONE").data, maxAutoRetries := 2 }
          { out := fun _ _ => ("hi").data, mods := fun _ _ => []
            synthOut := ("ans").data }
          none (fun p t => if p = Persona.A ∧ t = 0 then 3 else 0)
          ("np").data).turnsCompleted = 0
      ∧ pay.persona = Persona.A
      ∧ pay.turnIndex = 0
      ∧ (runDiscussion
          { mode := .FixedTurns, fixedTurns := 1, safetyCap := 5
            sentinel := ("DONE").data, maxAutoRetries := 2 }
          { out := fun _ _ => ("hi").data, mods := fun _ _ => []
            synthOut := ("ans").data }
          none (fun p t => if p = Persona.A ∧ t = 0 then 3 else 0)
          ("np").data).calls
          = (runDiscussion
              { mode := .FixedTurns, fixedTurns := 1, safetyCap := 5
                sentinel := ("DONE").data, maxAutoRetries := 2 }
              { out := fun _ _ => ("hi").data, mods := fun _ _ => []
                synthOut := ("ans").data }
              none (fun _ _ => 0) ("np").data).calls.take
              (2 * 0 + if Persona.A = Persona.B then 1 else 0)
            ++ [{ persona := Persona.A, turn := 0, isSynthesis := false
                  transcript := pay.transcript, notepad := pay.notepad
                  attempts := 2 + 1 }]
      ∧ (retryFailedStep
          { mode := .FixedTurns, fixedTurns := 1, safetyCap := 5
            sentinel := ("DONE").data, maxAutoRetries := 2 }
          { out := fun _ _ => ("hi").data, mods := fun _ _ => []
            synthOut := ("ans").data }
          none (fun _ _ => 0) pay).status = RunStatus.completed
      ∧ (retryFailedStep
          { mode := .FixedTurns, fixedTurns := 1, safetyCap := 5
            sentinel := ("DONE").data, maxAutoRetries := 2 }
          { out := fun _ _ => ("hi").data, mods := fun _ _ => []
            synthOut := ("ans").data }
          none (fun _ _ => 0) pay).transcript
          = (runDiscussion
              { mode := .FixedTurns, fixedTurns := 1, safetyCap := 5
                sentinel := ("DONE").data, maxAutoRetries := 2 }
              { out := fun _ _ => ("hi").data, mods := fun _ _ => []
                synthOut := ("ans").data }
              none (fun _ _ => 0) ("np").data).transcript
      ∧ (retryFailedStep
          { mode := .FixedTurns, fixedTurns := 1, safetyCap := 5
            sentinel := ("DONE").data, maxAutoRetries := 2 }
          { out := fun _ _ => ("hi").data, mods := fun _ _ => []
            synthOut := ("ans").data }
          none (fun _ _ => 0) pay).notepad
          = (runDiscussion
              { mode := .FixedTurns, fixedTurns := 1, safetyCap := 5
                sentinel := ("DONE").data, maxAutoRetries := 2 }
              { out := fun _ _ => ("hi").data, mods := fun _ _ => []
                synthOut := ("ans").data }
              none (fun _ _ => 0) ("np").data).notepad
      ∧ (retryFailedStep
          { mode := .FixedTurns, fixedTurns := 1, safetyCap := 5
            sentinel := ("DONE").data, maxAutoRetries := 2 }
          { out := fun _ _ => ("hi").data, mods := fun _ _ => []
            synthOut := ("ans").data }
          none (fun _ _ => 0) pay).turnsCompleted
          = (runDiscussion
              { mode := .FixedTurns, fixedTurns := 1, safetyCap := 5
                sentinel := ("DONE").data, maxAutoRetries := 2 }
              { out := fun _ _ => ("hi").data, mods := fun _ _ => []
                synthOut := ("ans").data }
              none (fun _ _ => 0) ("np").data).turnsCompleted
      ∧ (retryFailedStep
          { mode := .FixedTurns, fixedTurns := 1, safetyCap := 5
            sentinel := ("DONE").data, maxAutoRetries := 2 }
          { out := fun _ _ => ("hi").data, mods := fun _ _ => []
            synthOut := ("ans").data }
          none (fun _ _ => 0) pay).calls
          = (runDiscussion
              { mode := .FixedTurns, fixedTurns := 1, safetyCap := 5
                sentinel := ("DONE").data, maxAutoRetries := 2 }
              { out := fun _ _ => ("hi").data, mods := fun _ _ => []
                synthOut := ("ans").data }
              none (fun _ _ => 0) ("np").data).calls.drop
              (2 * 0 + if Persona.A = Persona.B then 1 else 0) :=
  spec_C8 _ _ _ _ Persona.A 0 (by decide) (by decide)
    (fun p t h => if_neg h)
    (fun j _ hm => absurd hm (by decide))

end DualAiChat
